import Mathlib

/-!
Shallow embedding of the spreadsheet calculation engine (`rust-engine`):
cell model, A1 reference algebra, sparse grid store, formula parser,
evaluator, dependency graph, recalculation and the engine facade, together
with theorems settling the specification claims.
-/

namespace SheetSpec

/-- Rust strings are modelled as lists of characters.  Every string
exercised by the verified claims is ASCII, where Rust's byte indices and
character indices coincide, so slicing by character position is faithful. -/
abbrev Str := List Char

/-- `char::is_ascii_alphabetic`. -/
def isAsciiAlphabetic (c : Char) : Bool :=
  (65 ≤ c.toNat && c.toNat ≤ 90) || (97 ≤ c.toNat && c.toNat ≤ 122)

/-- `char::is_ascii_digit`. -/
def isAsciiDigit (c : Char) : Bool :=
  48 ≤ c.toNat && c.toNat ≤ 57

/-- `char::to_ascii_uppercase`. -/
def toAsciiUpper (c : Char) : Char :=
  if 97 ≤ c.toNat && c.toNat ≤ 122 then Char.ofNat (c.toNat - 32) else c

/-- `char::to_ascii_lowercase`. -/
def toAsciiLower (c : Char) : Char :=
  if 65 ≤ c.toNat && c.toNat ≤ 90 then Char.ofNat (c.toNat + 32) else c

/-- The ASCII fragment of `char::is_whitespace` (all inputs are ASCII). -/
def isWhitespaceChar (c : Char) : Bool :=
  c.toNat = 32 || (9 ≤ c.toNat && c.toNat ≤ 13)

/-- `str::trim`. -/
def trimStr (s : Str) : Str :=
  ((s.dropWhile isWhitespaceChar).reverse.dropWhile isWhitespaceChar).reverse

/-- `str::eq_ignore_ascii_case`. -/
def eqIgnoreAsciiCase (a b : Str) : Bool :=
  a.map toAsciiLower == b.map toAsciiLower

/-- Convenience: the character list of a string literal. -/
def str (s : String) : Str := s.data

/-! ## The `f64` model

Finite doubles are carried as exact rationals: every numeric literal and
arithmetic result exercised by the verified claims is a small integer, on
which IEEE 754 double arithmetic is exact, so the rational model agrees
with the code there.  Rounding and overflow of doubles are not modelled.
The non-finite values `nan`, `inf`, `neginf` are modelled explicitly
because serialization, comparison and display treat them specially. -/

inductive F64 where
  | finite (q : ℚ)
  | nan
  | inf
  | neginf
deriving DecidableEq, Repr

/-- IEEE addition (finite overflow to infinity is not modelled). -/
def F64.add : F64 → F64 → F64
  | .finite a, .finite b => .finite (a + b)
  | .nan, _ => .nan
  | _, .nan => .nan
  | .inf, .neginf => .nan
  | .neginf, .inf => .nan
  | .inf, _ => .inf
  | _, .inf => .inf
  | .neginf, _ => .neginf
  | _, .neginf => .neginf

/-- IEEE negation. -/
def F64.neg : F64 → F64
  | .finite a => .finite (-a)
  | .nan => .nan
  | .inf => .neginf
  | .neginf => .inf

/-- IEEE subtraction. -/
def F64.sub (a b : F64) : F64 := a.add b.neg

/-- IEEE multiplication (finite overflow to infinity is not modelled). -/
def F64.mul : F64 → F64 → F64
  | .finite a, .finite b => .finite (a * b)
  | .nan, _ => .nan
  | _, .nan => .nan
  | .inf, .finite b => if b > 0 then .inf else if b < 0 then .neginf else .nan
  | .finite a, .inf => if a > 0 then .inf else if a < 0 then .neginf else .nan
  | .neginf, .finite b => if b > 0 then .neginf else if b < 0 then .inf else .nan
  | .finite a, .neginf => if a > 0 then .neginf else if a < 0 then .inf else .nan
  | .inf, .inf => .inf
  | .inf, .neginf => .neginf
  | .neginf, .inf => .neginf
  | .neginf, .neginf => .inf

/-- IEEE division.  The engine only divides after checking the divisor
against `0.0`, but the operation is modelled totally (a signed zero is not
modelled: division of a finite nonzero value by zero yields the infinity
of the numerator's sign). -/
def F64.div : F64 → F64 → F64
  | .nan, _ => .nan
  | _, .nan => .nan
  | .finite a, .finite b =>
      if b = 0 then (if a > 0 then .inf else if a < 0 then .neginf else .nan)
      else .finite (a / b)
  | .finite _, .inf => .finite 0
  | .finite _, .neginf => .finite 0
  | .inf, .finite _ => .inf
  | .neginf, .finite _ => .neginf
  | _, _ => .nan

/-- IEEE equality (`==` on `f64`): `nan` is equal to nothing. -/
def F64.beq : F64 → F64 → Bool
  | .finite a, .finite b => a == b
  | .inf, .inf => true
  | .neginf, .neginf => true
  | _, _ => false

/-- IEEE `<`: any comparison involving `nan` is false. -/
def F64.blt : F64 → F64 → Bool
  | .finite a, .finite b => a < b
  | .finite _, .inf => true
  | .neginf, .finite _ => true
  | .neginf, .inf => true
  | _, _ => false

/-- IEEE `<=`. -/
def F64.ble (a b : F64) : Bool := a.blt b || a.beq b

/-- `f64::abs`. -/
def F64.abs : F64 → F64
  | .finite a => .finite |a|
  | .nan => .nan
  | .inf => .inf
  | .neginf => .inf

/-- `f64::sqrt`, modelled exactly where the argument has an exact rational
square root (negative arguments give `nan` as in IEEE) and by the rational
built from the integer square roots of numerator and denominator
otherwise.  No verified claim evaluates `SQRT`. -/
def F64.sqrt : F64 → F64
  | .finite a =>
      if a < 0 then .nan
      else .finite ((Nat.sqrt a.num.toNat : ℚ) / (Nat.sqrt a.den : ℚ))
  | .nan => .nan
  | .inf => .inf
  | .neginf => .nan

/-- `f64::powf`, modelled exactly for integer exponents (the only shape a
spreadsheet formula in the verified claims could produce); non-integer
exponents are modelled as `nan`.  No verified claim evaluates `^` or
`POWER`. -/
def F64.powf : F64 → F64 → F64
  | .finite a, .finite b =>
      if b.den = 1 then .finite (a ^ b.num) else .nan
  | _, _ => .nan

/-- `f64::round` (half away from zero) on the rational model. -/
def F64.round : F64 → F64
  | .finite a =>
      if a ≥ 0 then .finite ((⌊a + 1/2⌋ : ℤ) : ℚ)
      else .finite (-((⌊-a + 1/2⌋ : ℤ) : ℚ))
  | x => x

/-- `10_f64.powi n` for an `i32` exponent (exact on rationals). -/
def F64.tenPowi (n : ℤ) : F64 := .finite ((10 : ℚ) ^ n)

/-- The `as i32` saturating float-to-int cast used by `ROUND`. -/
def F64.toI32 : F64 → ℤ
  | .finite a =>
      if a.num < 0 then max (-(2^31)) ⌈a⌉ else min (2^31 - 1) ⌊a⌋
  | .nan => 0
  | .inf => 2^31 - 1
  | .neginf => -(2^31)

/-- `fract() == 0.0`: true exactly for finite integral values (the
fractional part of `nan` and of the infinities is `nan`, which compares
unequal to zero). -/
def F64.fractIsZero : F64 → Bool
  | .finite a => a.den = 1
  | _ => false

/-- `abs() < 1e15`. -/
def F64.absLtE15 : F64 → Bool
  | .finite a => |a| < (10 : ℚ) ^ (15 : ℕ)
  | _ => false

/-! ## Decimal digit strings -/

/-- The decimal digits of `n`, least significant first (empty for `0`). -/
def natDigitsRev (n : Nat) : List Nat :=
  if h : n = 0 then [] else (n % 10) :: natDigitsRev (n / 10)
decreasing_by exact Nat.div_lt_self (Nat.pos_of_ne_zero h) (by norm_num)

/-- Decimal rendering of a natural number (Rust `Display` for integers). -/
def natToStr (n : Nat) : Str :=
  if n = 0 then [Char.ofNat 48]
  else ((natDigitsRev n).reverse).map (fun d => Char.ofNat (48 + d))

/-- Decimal rendering of an `i64` (Rust `Display`). -/
def intToStr (n : ℤ) : Str :=
  if n < 0 then Char.ofNat 45 :: natToStr n.natAbs else natToStr n.toNat

/-- Numeric value of a list of decimal digit characters. -/
def digitsVal (s : Str) : Nat :=
  s.foldl (fun a c => a * 10 + (c.toNat - 48)) 0

/-- `str::parse::<u32>`: an optional `+` sign followed by decimal digits;
overflow is an error. -/
def parseU32 (s : Str) : Option Nat :=
  let t := match s with
    | c :: rest => if c.toNat = 43 then rest else s
    | [] => []
  if t.isEmpty then none
  else if t.all isAsciiDigit then
    let v := digitsVal t
    if v < 4294967296 then some v else none
  else none

/-! ## Cell references (`cell.rs`) -/

/-- `CellRef` — a `(row, col)` pair of `u32` indices. -/
structure CellRef where
  row : Nat
  col : Nat
deriving DecidableEq, Repr

/-- `CellRef::col_to_letter`: bijective base-26 column rendering; the loop
prepends `'A' + n % 26` and continues with `n / 26 - 1` while the
pre-division value is at least 26. -/
def col_to_letter (col : Nat) : Str :=
  if col < 26 then [Char.ofNat (65 + col % 26)]
  else col_to_letter (col / 26 - 1) ++ [Char.ofNat (65 + col % 26)]
decreasing_by
  have h1 : col / 26 < col := Nat.div_lt_self (by omega) (by norm_num)
  omega

/-- `CellRef::letter_to_col`: fails on a non-alphabetic character, folds
`col * 26 + (uppercase − 'A' + 1)` (a wrapping `u32` product in release
builds, hence the modulus) and finally applies `saturating_sub(1)` (which
is ordinary truncated subtraction on `Nat`). -/
def letter_to_col (letter : Str) : Option Nat :=
  if letter.all isAsciiAlphabetic then
    some ((letter.foldl
      (fun col c => (col * 26 + ((toAsciiUpper c).toNat - 65 + 1)) % 4294967296) 0) - 1)
  else none

/-- `CellRef::new`. -/
def CellRef.new (row col : Nat) : CellRef := ⟨row, col⟩

/-- `CellRef::parse` (`"A1"`, `"BC42"`): trim, uppercase, split at the
alphabetic/numeric boundary (empty alphabetic part fails), parse both
parts, and 0-index the row with `saturating_sub(1)`. -/
def CellRef.parse (s : Str) : Option CellRef :=
  let t := (trimStr s).map toAsciiUpper
  let colEnd := (t.takeWhile isAsciiAlphabetic).length
  if colEnd = 0 then none
  else
    match letter_to_col (t.take colEnd) with
    | none => none
    | some col =>
      match parseU32 (t.drop colEnd) with
      | none => none
      | some row => some ⟨row - 1, col⟩

/-- `CellRef::to_a1`. -/
def CellRef.to_a1 (r : CellRef) : Str :=
  col_to_letter r.col ++ natToStr (r.row + 1)

/-! ## Cell values (`cell.rs`) -/

inductive HorizontalAlign where
  | Left
  | Center
  | Right
deriving DecidableEq, Repr

inductive VerticalAlign where
  | Top
  | Middle
  | Bottom
deriving DecidableEq, Repr

/-- `CellValue` — the tagged cell value taxonomy. -/
inductive CellValue where
  | Empty
  | Text (s : Str)
  | Number (n : F64)
  | Boolean (b : Bool)
  | Error (e : Str)
deriving DecidableEq, Repr

/-- Leading sign of a numeric string: `(negative, rest)`. -/
def splitSign : Str → Bool × Str
  | [] => (false, [])
  | c :: rest =>
    if c.toNat = 45 then (true, rest)
    else if c.toNat = 43 then (false, rest)
    else (false, c :: rest)

/-- Split a float string at the first exponent marker `e`/`E`. -/
def splitExp (t : Str) : Str × Option Str :=
  match t.findIdx? (fun c => c.toNat = 101 || c.toNat = 69) with
  | none => (t, none)
  | some i => (t.take i, some (t.drop (i + 1)))

/-- Parse an unsigned decimal mantissa `digits [. digits]` (at least one
digit overall) into an exact rational. -/
def parseMantissa (t : Str) : Option ℚ :=
  let ip := t.takeWhile isAsciiDigit
  let rest := t.drop ip.length
  match rest with
  | [] => if ip.isEmpty then none else some (digitsVal ip : ℚ)
  | c :: frac =>
    if c.toNat = 46 then
      if frac.all isAsciiDigit then
        if ip.isEmpty && frac.isEmpty then none
        else some ((digitsVal ip : ℚ) + (digitsVal frac : ℚ) / (10 : ℚ) ^ frac.length)
      else none
    else none

/-- `str::parse::<f64>`: optional sign, then `inf`/`infinity`/`nan`
(case-insensitive) or a decimal mantissa with optional exponent.  Decimal
values are carried exactly as rationals (the code rounds to the nearest
double; every numeric literal in the verified claims is exactly
representable, where the two agree). -/
def parseF64 (s : Str) : Option F64 :=
  let p := splitSign s
  let t := p.2
  if t.isEmpty then none
  else if eqIgnoreAsciiCase t (str "inf") || eqIgnoreAsciiCase t (str "infinity") then
    some (if p.1 then F64.neginf else F64.inf)
  else if eqIgnoreAsciiCase t (str "nan") then some F64.nan
  else
    let se := splitExp t
    match parseMantissa se.1 with
    | none => none
    | some m =>
      match se.2 with
      | none => some (F64.finite (if p.1 then -m else m))
      | some es =>
        let pe := splitSign es
        if pe.2.isEmpty || !(pe.2.all isAsciiDigit) then none
        else
          let e := digitsVal pe.2
          let q := if pe.1 then m / (10 : ℚ) ^ e else m * (10 : ℚ) ^ e
          some (F64.finite (if p.1 then -q else q))

/-- `CellValue::parse`: empty, boolean keywords, float, percentage,
currency, else text (the original, untrimmed string). -/
def CellValue.parse (s : Str) : CellValue :=
  let trimmed := trimStr s
  if trimmed.isEmpty then .Empty
  else if eqIgnoreAsciiCase trimmed (str "true") then .Boolean true
  else if eqIgnoreAsciiCase trimmed (str "false") then .Boolean false
  else
    match parseF64 trimmed with
    | some n => .Number n
    | none =>
      let pct :=
        if trimmed.getLast? = some (Char.ofNat 37) then
          parseF64 (trimmed.take (trimmed.length - 1))
        else none
      match pct with
      | some n => .Number (n.div (F64.finite 100))
      | none =>
        let isCurrency :=
          trimmed.head? = some (Char.ofNat 36) ∨
          (trimmed.head? = some (Char.ofNat 45) ∧ trimmed.get? 1 = some (Char.ofNat 36))
        let cur :=
          if isCurrency then
            parseF64 (trimmed.filter
              (fun c => isAsciiDigit c || c.toNat = 46 || c.toNat = 45))
          else none
        match cur with
        | some n => .Number n
        | none => .Text s

/-- The `as i64` saturating cast used by the integer display fast path. -/
def F64.toI64 : F64 → ℤ
  | .finite a => if a.num < 0 then max (-(2 ^ 63)) ⌈a⌉ else min (2 ^ 63 - 1) ⌊a⌋
  | .nan => 0
  | .inf => 2 ^ 63 - 1
  | .neginf => -(2 ^ 63)

/-- Rust `Display` for a general double — the `format!` fallback branch of
`CellValue::display`.  A finite non-integral value prints a decimal
expansion in Rust; the model renders numerator and denominator instead,
which no verified claim observes (every number displayed in the claims
takes the integer fast path). -/
def floatFmt : F64 → Str
  | .finite q => intToStr q.num ++ (Char.ofNat 47 :: natToStr q.den)
  | .nan => str "NaN"
  | .inf => str "inf"
  | .neginf => str "-inf"

/-- `CellValue::display`. -/
def CellValue.display : CellValue → Str
  | .Empty => []
  | .Text s => s
  | .Number n =>
      if n.fractIsZero && n.absLtE15 then intToStr n.toI64 else floatFmt n
  | .Boolean b => if b then str "TRUE" else str "FALSE"
  | .Error e => Char.ofNat 35 :: e

/-- `CellValue::is_truthy` (`Number` compares against `0.0` with IEEE
inequality, so `Number(nan)` is truthy). -/
def CellValue.is_truthy : CellValue → Bool
  | .Empty => false
  | .Text s => !s.isEmpty
  | .Number n => !(n.beq (.finite 0))
  | .Boolean b => b
  | .Error _ => false

/-- `CellValue::to_number`. -/
def CellValue.to_number : CellValue → Option F64
  | .Number n => some n
  | .Boolean true => some (.finite 1)
  | .Boolean false => some (.finite 0)
  | .Text s => parseF64 (trimStr s)
  | .Empty => none
  | .Error _ => none

/-- The derived `PartialEq` on `CellValue`: structural, except that
`Number` compares with IEEE `==` (`Number(nan)` is unequal to itself). -/
def CellValue.rustEq : CellValue → CellValue → Bool
  | .Empty, .Empty => true
  | .Text a, .Text b => a == b
  | .Number a, .Number b => a.beq b
  | .Boolean a, .Boolean b => a == b
  | .Error a, .Error b => a == b
  | _, _ => false

/-- `CellFormat` (the `f32` font size is modelled like the other floats). -/
structure CellFormat where
  number_format : Option Str := none
  font_bold : Option Bool := none
  font_italic : Option Bool := none
  font_underline : Option Bool := none
  font_family : Option Str := none
  font_size : Option F64 := none
  font_color : Option Str := none
  bg_color : Option Str := none
  align_h : Option HorizontalAlign := none
  align_v : Option VerticalAlign := none
deriving DecidableEq, Repr

/-- `Cell` — value, optional verbatim formula text, optional format. -/
structure Cell where
  value : CellValue
  formula : Option Str := none
  format : Option CellFormat := none
deriving DecidableEq, Repr

/-- `Cell::new`. -/
def Cell.new (value : CellValue) : Cell := ⟨value, none, none⟩

/-- `Cell::with_formula`. -/
def Cell.with_formula (value : CellValue) (formula : Str) : Cell :=
  ⟨value, some formula, none⟩

/-- `Cell::display`. -/
def Cell.display (c : Cell) : Str := c.value.display

/-! ## Association-list maps

`HashMap` and `IndexMap` are modelled as association lists in insertion
order.  `IndexMap`'s iteration order (insertion order, preserved by
`shift_remove`) is observable; `HashMap`'s arbitrary iteration order is
not observable through any verified claim, so insertion order stands in
for it. -/

/-- Map lookup (first matching key). -/
def alistGet {κ α : Type} [DecidableEq κ] (k : κ) : List (κ × α) → Option α
  | [] => none
  | (k', v) :: rest => if k' = k then some v else alistGet k rest

/-- Map insert: replace in place if the key is present (keeping its
position, as `IndexMap::insert` does), else append. -/
def alistInsert {κ α : Type} [DecidableEq κ] (k : κ) (v : α) :
    List (κ × α) → List (κ × α)
  | [] => [(k, v)]
  | (k', v') :: rest =>
    if k' = k then (k, v) :: rest else (k', v') :: alistInsert k v rest

/-- Map removal preserving the order of the remaining entries
(`IndexMap::shift_remove` / `HashMap::remove`).  Map keys are unique, so
removal is rendered as a filter. -/
def alistRemove {κ α : Type} [DecidableEq κ] (k : κ) (l : List (κ × α)) :
    List (κ × α) :=
  l.filter (fun p => p.1 ≠ k)

/-- In-place update of the entry at `k`, if present (mutation through
`get_mut`). -/
def alistModify {κ α : Type} [DecidableEq κ] (k : κ) (f : α → α) :
    List (κ × α) → List (κ × α)
  | [] => []
  | (k', v') :: rest =>
    if k' = k then (k', f v') :: rest else (k', v') :: alistModify k f rest

/-! ## Formula data model (`formula.rs`) -/

/-- `FormulaError` (string payloads as in the source). -/
inductive FormulaError where
  | Parse (msg : Str)
  | CircularReference
  | InvalidRef (msg : Str)
  | DivisionByZero
  | TypeError (expected got : Str)
  | UnknownFunction (name : Str)
  | ArgumentCount (func : Str) (expected : Str) (got : Nat)
  | Grid (msg : Str)
deriving DecidableEq, Repr

inductive BinaryOp where
  | Add
  | Sub
  | Mul
  | Div
  | Pow
  | Eq
  | Ne
  | Lt
  | Le
  | Gt
  | Ge
  | Concat
deriving DecidableEq, Repr

inductive UnaryOp where
  | Neg
  | Percent
deriving DecidableEq, Repr

/-- `FormulaNode` — the formula AST. -/
inductive FormulaNode where
  | Number (value : F64)
  | Text (value : Str)
  | Boolean (value : Bool)
  | CellRef (cell : CellRef)
  | Range (start stop : CellRef)
  | BinaryOp (op : BinaryOp) (left right : FormulaNode)
  | UnaryOp (op : UnaryOp) (operand : FormulaNode)
  | Function (name : Str) (args : List FormulaNode)

/-- `Formula` — raw text, AST and collected dependency list (a multiset:
duplicates are kept). -/
structure Formula where
  raw : Str
  ast : FormulaNode
  dependencies : List CellRef

/-! ## Grid store (`grid.rs`) -/

inductive GridError where
  | OutOfBounds (r : CellRef)
  | Serialization (msg : Str)
  | Formula (msg : Str)
deriving DecidableEq, Repr

/-- The `thiserror` display string of a `GridError`. -/
def GridError.toMsg : GridError → Str
  | .OutOfBounds r => str "Cell reference out of bounds: " ++ r.to_a1
  | .Serialization m => str "Serialization error: " ++ m
  | .Formula m => str "Formula error: " ++ m

/-- The `thiserror` display string of a `FormulaError`. -/
def FormulaError.toMsg : FormulaError → Str
  | .Parse m => str "Parse error: " ++ m
  | .CircularReference => str "Circular reference detected"
  | .InvalidRef m => str "Invalid cell reference: " ++ m
  | .DivisionByZero => str "Division by zero"
  | .TypeError expected got =>
      str "Type error: expected " ++ expected ++ str ", got " ++ got
  | .UnknownFunction n => str "Unknown function: " ++ n
  | .ArgumentCount f expected got =>
      str "Invalid argument count for " ++ f ++ str ": expected " ++ expected ++
        str ", got " ++ natToStr got
  | .Grid m => str "Grid error: " ++ m

/-- `impl From<FormulaError> for GridError`. -/
def FormulaError.toGridError (e : FormulaError) : GridError := .Formula e.toMsg

/-- `impl From<GridError> for FormulaError`. -/
def GridError.toFormulaError (e : GridError) : FormulaError := .Grid e.toMsg

/-- A column: row index → cell, in insertion order (`IndexMap<u32, Cell>`). -/
abbrev Column := List (Nat × Cell)

/-- `Grid` — bounded sparse columnar store.  The `f32` widths and heights
are carried in the float model. -/
structure Grid where
  rows : Nat
  cols : Nat
  columns : List (Nat × Column) := []
  col_widths : List (Nat × F64) := []
  row_heights : List (Nat × F64) := []
  default_col_width : F64 := .finite 100
  default_row_height : F64 := .finite 24
deriving DecidableEq, Repr

/-- `Grid::new`. -/
def Grid.new (rows cols : Nat) : Grid := { rows := rows, cols := cols }

/-- `Grid::get_cell`. -/
def Grid.get_cell (g : Grid) (r : CellRef) : Option Cell :=
  match alistGet r.col g.columns with
  | none => none
  | some column => alistGet r.row column

/-- `Grid::check_bounds`. -/
def Grid.check_bounds (g : Grid) (r : CellRef) : Except GridError Unit :=
  if r.row ≥ g.rows ∨ r.col ≥ g.cols then .error (.OutOfBounds r) else .ok ()

/-- `Grid::set_value`: after the bounds check, the column entry is
created if needed; an `Empty` value removes the row entry outright (and
the column when it becomes empty), any other value stores a fresh
`Cell::new` (dropping any formula or format the cell had). -/
def Grid.set_value (g : Grid) (r : CellRef) (v : CellValue) : Except GridError Grid :=
  match g.check_bounds r with
  | .error e => .error e
  | .ok _ =>
    let column := (alistGet r.col g.columns).getD []
    match v with
    | .Empty =>
      let column := alistRemove r.row column
      if column.isEmpty then
        .ok { g with columns := alistRemove r.col g.columns }
      else
        .ok { g with columns := alistInsert r.col column g.columns }
    | _ =>
      .ok { g with columns :=
              alistInsert r.col (alistInsert r.row (Cell.new v) column) g.columns }

/-- `Grid::set_formula`: stores the raw formula text with an `Empty`
placeholder value (the evaluator overwrites the value later). -/
def Grid.set_formula (g : Grid) (r : CellRef) (f : Formula) : Except GridError Grid :=
  match g.check_bounds r with
  | .error e => .error e
  | .ok _ =>
    let column := (alistGet r.col g.columns).getD []
    let column := alistInsert r.row (Cell.with_formula .Empty f.raw) column
    .ok { g with columns := alistInsert r.col column g.columns }

/-- `Grid::set_computed_value`: writes through `get_cell_mut`; a missing
cell is left missing. -/
def Grid.set_computed_value (g : Grid) (r : CellRef) (v : CellValue) :
    Except GridError Grid :=
  match g.check_bounds r with
  | .error e => .error e
  | .ok _ =>
    let upd := alistModify r.row (fun c => { c with value := v })
    .ok { g with columns := alistModify r.col upd g.columns }

/-- Per-field merge of a new partial format into an existing one
(`Grid::set_format`'s merge branch). -/
def mergeFormat (existing new : CellFormat) : CellFormat where
  number_format := if new.number_format.isSome then new.number_format else existing.number_format
  font_bold := if new.font_bold.isSome then new.font_bold else existing.font_bold
  font_italic := if new.font_italic.isSome then new.font_italic else existing.font_italic
  font_underline := if new.font_underline.isSome then new.font_underline else existing.font_underline
  font_family := if new.font_family.isSome then new.font_family else existing.font_family
  font_size := if new.font_size.isSome then new.font_size else existing.font_size
  font_color := if new.font_color.isSome then new.font_color else existing.font_color
  bg_color := if new.bg_color.isSome then new.bg_color else existing.bg_color
  align_h := if new.align_h.isSome then new.align_h else existing.align_h
  align_v := if new.align_v.isSome then new.align_v else existing.align_v

/-- `Grid::set_format`: creates the cell (with `Empty` value) if absent and
merges the partial format. -/
def Grid.set_format (g : Grid) (r : CellRef) (format : CellFormat) :
    Except GridError Grid :=
  match g.check_bounds r with
  | .error e => .error e
  | .ok _ =>
    let column := (alistGet r.col g.columns).getD []
    let cell := (alistGet r.row column).getD (Cell.new .Empty)
    let cell :=
      match cell.format with
      | some existing => { cell with format := some (mergeFormat existing format) }
      | none => { cell with format := some format }
    .ok { g with columns := alistInsert r.col (alistInsert r.row cell column) g.columns }

/-- `Grid::cell_count`. -/
def Grid.cell_count (g : Grid) : Nat :=
  (g.columns.map (fun c => c.2.length)).sum

/-- `CellData` — the transfer record (its `value` is the display string). -/
structure CellData where
  row : Nat
  col : Nat
  value : Str
  formula : Option Str
  format : Option CellFormat
deriving DecidableEq, Repr

structure GridDiff where
  cells : List CellData
deriving DecidableEq, Repr

/-- `GridDiff::from_cells`: materializes the given refs, skipping refs
with no stored cell. -/
def GridDiff.from_cells (grid : Grid) (cells : List CellRef) : GridDiff :=
  ⟨cells.filterMap (fun r =>
    (grid.get_cell r).map (fun c =>
      ⟨r.row, r.col, c.value.display, c.formula, c.format⟩))⟩

structure CellUpdate where
  row : Nat
  col : Nat
  value : Option Str := none
  formula : Option Str := none
deriving DecidableEq, Repr

structure GridPatch where
  updates : List CellUpdate
deriving DecidableEq, Repr

/-! ## Formula parser (`formula.rs`) -/

abbrev ParseRes := Except FormulaError (FormulaNode × List CellRef)

/-- `str::strip_prefix('=').unwrap_or(s)`. -/
def stripPrefixEq : Str → Str
  | [] => []
  | c :: rest => if c.toNat = 61 then rest else c :: rest

/-- `str::split_once(sep)`. -/
def splitOnce (sep : Char) : Str → Option (Str × Str)
  | [] => none
  | c :: rest =>
    if c = sep then some ([], rest)
    else
      match splitOnce sep rest with
      | none => none
      | some p => some (c :: p.1, p.2)

/-- All cells of the rectangle `start..=stop`, row-major (the dependency
expansion of a `Range`; empty when a stop coordinate is below its start,
as for Rust's `..=` ranges). -/
def rangeRefs (start stop : CellRef) : List CellRef :=
  (List.range' start.row (stop.row + 1 - start.row)).flatMap (fun row =>
    (List.range' start.col (stop.col + 1 - start.col)).map (fun col => ⟨row, col⟩))

/-- The quoted-string test of the parser: matching double or single quotes
at both ends. -/
def isQuoted (expr : Str) : Prop :=
  (expr.head? = some (Char.ofNat 34) ∧ expr.getLast? = some (Char.ofNat 34)) ∨
  (expr.head? = some (Char.ofNat 39) ∧ expr.getLast? = some (Char.ofNat 39))

instance (expr : Str) : Decidable (isQuoted expr) := by
  unfold isQuoted; infer_instance

/-- The range atom: a single `:` split whose two sides parse as refs. -/
def parseRangeAtom (expr : Str) : Option (FormulaNode × List CellRef) :=
  match splitOnce (Char.ofNat 58) expr with
  | none => none
  | some p =>
    match CellRef.parse p.1, CellRef.parse p.2 with
    | some s, some t => some (.Range s t, rangeRefs s t)
    | _, _ => none

/-- The function-call atom test: a first `(` exists and the expression
ends with `)`; yields the uppercased name and the argument substring. -/
def funcSplit (expr : Str) : Option (Str × Str) :=
  match expr.findIdx? (fun c => c.toNat == 40) with
  | none => none
  | some parenPos =>
    if expr.getLast? = some (Char.ofNat 41) then
      some ((trimStr (expr.take parenPos)).map toAsciiUpper,
            (expr.drop (parenPos + 1)).take (expr.length - parenPos - 2))
    else none

/-- The right-to-left scan of `try_parse_binary_op` over the remaining
candidate indices (descending), tracking parenthesis depth (an `i32`):
returns the split index — the rightmost operator of the level at depth
zero with nonzero index and nonempty trimmed sides.  (In the source the
split parses immediately and parse errors propagate without further
scanning, so choosing the index first is equivalent.) -/
def findSplitIdx (expr : Str) (ops : List Char) : List Nat → ℤ → Option Nat
  | [], _ => none
  | i :: rest, depth =>
    match expr.get? i with
    | none => none
    | some c =>
      if c.toNat = 41 then findSplitIdx expr ops rest (depth + 1)
      else if c.toNat = 40 then findSplitIdx expr ops rest (depth - 1)
      else if depth = 0 ∧ c ∈ ops then
        if i = 0 then findSplitIdx expr ops rest depth
        else if (trimStr (expr.take i)).isEmpty ∨ (trimStr (expr.drop (i + 1))).isEmpty then
          findSplitIdx expr ops rest depth
        else some i
      else findSplitIdx expr ops rest depth

def findSplit (expr : Str) (ops : List Char) : Option Nat :=
  findSplitIdx expr ops (List.range expr.length).reverse 0

/-- The operator of a split character. -/
def opOfChar (c : Option Char) : BinaryOp :=
  match c with
  | some c =>
    if c.toNat = 43 then .Add
    else if c.toNat = 45 then .Sub
    else if c.toNat = 42 then .Mul
    else if c.toNat = 47 then .Div
    else .Pow
  | none => .Pow

/-- `parse_function_args`' splitting pass: pieces between depth-zero
commas, parens included in the pieces; a blank trailing piece is dropped
(interior blank pieces are kept and parse to `Number(0)`). -/
def splitArgsAux : Str → Str → ℤ → List Str
  | [], current, _ => if (trimStr current).isEmpty then [] else [current]
  | c :: rest, current, depth =>
    if c.toNat = 40 then splitArgsAux rest (current ++ [c]) (depth + 1)
    else if c.toNat = 41 then splitArgsAux rest (current ++ [c]) (depth - 1)
    else if c.toNat = 44 ∧ depth = 0 then current :: splitArgsAux rest [] depth
    else splitArgsAux rest (current ++ [c]) depth

def splitArgs (args_str : Str) : List Str :=
  if (trimStr args_str).isEmpty then [] else splitArgsAux args_str [] 0

/-- `parse_expression`: atoms in source order (empty, float, booleans,
quoted string, cell ref, range, function call), then the binary-operator
levels additive, multiplicative, power.  The fuel counts recursion depth;
every recursive call parses a strictly shorter string, so the
`length + 1` budget supplied by `FormulaEngine.parse` is never exhausted
(the concrete claim computations confirm this on their inputs). -/
def parse_expression : Nat → Str → ParseRes
  | 0, _ => .error (.Parse (str "recursion limit"))
  | Nat.succ fuel, e =>
    let expr := trimStr e
    if expr.isEmpty then .ok (.Number (.finite 0), [])
    else
      match parseF64 expr with
      | some n => .ok (.Number n, [])
      | none =>
        if eqIgnoreAsciiCase expr (str "true") then .ok (.Boolean true, [])
        else if eqIgnoreAsciiCase expr (str "false") then .ok (.Boolean false, [])
        else if isQuoted expr then
          .ok (.Text ((expr.drop 1).take (expr.length - 2)), [])
        else
          match CellRef.parse expr with
          | some r => .ok (.CellRef r, [r])
          | none =>
            match parseRangeAtom expr with
            | some res => .ok res
            | none =>
              match funcSplit expr with
              | some (name, argsStr) =>
                let step := fun (acc : Except FormulaError (List FormulaNode × List CellRef))
                    (piece : Str) =>
                  match acc with
                  | .error er => .error er
                  | .ok (args, deps) =>
                    match parse_expression fuel piece with
                    | .error er => .error er
                    | .ok (node, nd) => .ok (args ++ [node], deps ++ nd)
                match (splitArgs argsStr).foldl step (.ok ([], [])) with
                | .error er => .error er
                | .ok (args, deps) => .ok (.Function name args, deps)
              | none =>
                let binAt := fun (i : Nat) =>
                  match parse_expression fuel (trimStr (expr.take i)) with
                  | .error er => .error er
                  | .ok (ln, ld) =>
                    match parse_expression fuel (trimStr (expr.drop (i + 1))) with
                    | .error er => .error er
                    | .ok (rn, rd) =>
                      .ok (.BinaryOp (opOfChar (expr.get? i)) ln rn, ld ++ rd)
                match findSplit expr [Char.ofNat 43, Char.ofNat 45] with
                | some i => binAt i
                | none =>
                  match findSplit expr [Char.ofNat 42, Char.ofNat 47] with
                  | some i => binAt i
                  | none =>
                    match findSplit expr [Char.ofNat 94] with
                    | some i => binAt i
                    | none => .error (.Parse (str "Cannot parse: " ++ expr))

/-- `FormulaEngine::parse` (the method reads no engine state): keeps the
original text as `raw`, strips a leading `=`, trims, and parses. -/
def FormulaEngine.parse (formula : Str) : Except FormulaError Formula :=
  let content := trimStr (stripPrefixEq formula)
  match parse_expression (content.length + 1) content with
  | .error e => .error e
  | .ok (ast, deps) => .ok ⟨formula, ast, deps⟩

/-! ## Evaluator (`formula.rs`) -/

abbrev EvalRes := Except FormulaError CellValue

/-- The `TypeError` produced by arithmetic on non-numeric operands. -/
def typeErrNonNum : FormulaError := .TypeError (str "number") (str "non-numeric")

/-- `FormulaEngine::evaluate_binary_op`.  Arithmetic requires both sides
to coerce to numbers; `Div` checks the right operand against `0.0` first;
`Eq`/`Ne` use the derived `PartialEq`; ordering comparisons yield
`Boolean(false)` when a coercion fails; `Concat` joins display strings. -/
def evaluate_binary_op (op : BinaryOp) (left right : CellValue) : EvalRes :=
  let left_num := left.to_number
  let right_num := right.to_number
  match op with
  | .Add =>
    match left_num, right_num with
    | some l, some r => .ok (.Number (l.add r))
    | _, _ => .error typeErrNonNum
  | .Sub =>
    match left_num, right_num with
    | some l, some r => .ok (.Number (l.sub r))
    | _, _ => .error typeErrNonNum
  | .Mul =>
    match left_num, right_num with
    | some l, some r => .ok (.Number (l.mul r))
    | _, _ => .error typeErrNonNum
  | .Div =>
    match left_num, right_num with
    | some l, some r =>
      if r.beq (.finite 0) then .error .DivisionByZero
      else .ok (.Number (l.div r))
    | _, _ => .error typeErrNonNum
  | .Pow =>
    match left_num, right_num with
    | some l, some r => .ok (.Number (l.powf r))
    | _, _ => .error typeErrNonNum
  | .Eq => .ok (.Boolean (left.rustEq right))
  | .Ne => .ok (.Boolean (!(left.rustEq right)))
  | .Lt =>
    match left_num, right_num with
    | some l, some r => .ok (.Boolean (l.blt r))
    | _, _ => .ok (.Boolean false)
  | .Le =>
    match left_num, right_num with
    | some l, some r => .ok (.Boolean (l.ble r))
    | _, _ => .ok (.Boolean false)
  | .Gt =>
    match left_num, right_num with
    | some l, some r => .ok (.Boolean (r.blt l))
    | _, _ => .ok (.Boolean false)
  | .Ge =>
    match left_num, right_num with
    | some l, some r => .ok (.Boolean (r.ble l))
    | _, _ => .ok (.Boolean false)
  | .Concat => .ok (.Text (left.display ++ right.display))

/-- `FormulaEngine::evaluate_unary_op`. -/
def evaluate_unary_op (op : UnaryOp) (val : CellValue) : EvalRes :=
  match op with
  | .Neg =>
    match val.to_number with
    | some n => .ok (.Number n.neg)
    | none => .error typeErrNonNum
  | .Percent =>
    match val.to_number with
    | some n => .ok (.Number (n.div (.finite 100)))
    | none => .error typeErrNonNum

/-- `f64::min` (a `nan` argument is ignored). -/
def F64.fmin (a b : F64) : F64 :=
  if a = .nan then b else if b = .nan then a else if a.blt b then a else b

/-- `f64::max` (a `nan` argument is ignored). -/
def F64.fmax (a b : F64) : F64 :=
  if a = .nan then b else if b = .nan then a else if a.blt b then b else a

/-- The rounding core of `fn_round`: `(n * 10^d).round() / 10^d`. -/
def fnRoundCore (val : CellValue) (decimals : ℤ) : EvalRes :=
  match val.to_number with
  | some n =>
    let multiplier := F64.tenPowi decimals
    .ok (.Number (((n.mul multiplier).round).div multiplier))
  | none => .error typeErrNonNum

/-- `FormulaEngine::evaluate` together with `evaluate_function`,
`collect_numbers` and the `fn_*` built-ins (inlined in the `Function`
case, labelled to match the source).  The fuel bounds recursion depth;
`recalculate` supplies a budget that dominates the call depth of any AST
(concrete claim computations confirm sufficiency on their inputs). -/
def evaluate : Nat → FormulaNode → Grid → EvalRes
  | 0, _, _ => .error (.Parse (str "recursion limit"))
  | Nat.succ fuel, node, grid =>
    match node with
    | .Number v => .ok (.Number v)
    | .Text v => .ok (.Text v)
    | .Boolean v => .ok (.Boolean v)
    | .CellRef c => .ok (((grid.get_cell c).map Cell.value).getD .Empty)
    | .Range s t =>
      .error (.TypeError (str "single value")
        (str "range " ++ s.to_a1 ++ (Char.ofNat 58 :: t.to_a1)))
    | .BinaryOp op l r =>
      match evaluate fuel l grid with
      | .error e => .error e
      | .ok lv =>
        match evaluate fuel r grid with
        | .error e => .error e
        | .ok rv => evaluate_binary_op op lv rv
    | .UnaryOp op x =>
      match evaluate fuel x grid with
      | .error e => .error e
      | .ok v => evaluate_unary_op op v
    | .Function name args =>
      -- `collect_numbers`: a `Range` argument reads the grid directly;
      -- any other argument is evaluated, with errors and non-numeric
      -- results silently skipped.
      let collect_numbers : List FormulaNode → List F64 := fun as =>
        as.foldl (fun acc arg =>
          acc ++
            match arg with
            | .Range s t =>
              (rangeRefs s t).filterMap (fun r =>
                (grid.get_cell r).bind (fun c => c.value.to_number))
            | _ =>
              match evaluate fuel arg grid with
              | .ok v => (v.to_number).toList
              | .error _ => []) []
      -- `evaluate_function`: dispatch on the (already uppercased) name.
      if name = str "SUM" then
        .ok (.Number ((collect_numbers args).foldl F64.add (.finite 0)))
      else if name = str "AVERAGE" ∨ name = str "AVG" then
        let numbers := collect_numbers args
        if numbers.isEmpty then .ok (.Error (str "DIV/0"))
        else
          .ok (.Number ((numbers.foldl F64.add (.finite 0)).div
                (.finite (numbers.length : ℚ))))
      else if name = str "MIN" then
        match collect_numbers args with
        | [] => .error (.ArgumentCount (str "MIN") (str "at least 1") 0)
        | x :: xs => .ok (.Number (xs.foldl F64.fmin x))
      else if name = str "MAX" then
        match collect_numbers args with
        | [] => .error (.ArgumentCount (str "MAX") (str "at least 1") 0)
        | x :: xs => .ok (.Number (xs.foldl F64.fmax x))
      else if name = str "COUNT" then
        .ok (.Number (.finite ((collect_numbers args).length : ℚ)))
      else if name = str "IF" then
        if args.length < 2 ∨ args.length > 3 then
          .error (.ArgumentCount (str "IF") (str "2 or 3") args.length)
        else
          match args with
          | a0 :: a1 :: rest =>
            match evaluate fuel a0 grid with
            | .error e => .error e
            | .ok condition =>
              if condition.is_truthy then evaluate fuel a1 grid
              else
                match rest with
                | a2 :: _ => evaluate fuel a2 grid
                | [] => .ok (.Boolean false)
          | _ => .error (.ArgumentCount (str "IF") (str "2 or 3") args.length)
      else if name = str "ABS" then
        match args with
        | [a0] =>
          match evaluate fuel a0 grid with
          | .error e => .error e
          | .ok v =>
            match v.to_number with
            | some n => .ok (.Number n.abs)
            | none => .error typeErrNonNum
        | _ => .error (.ArgumentCount (str "ABS") (str "1") args.length)
      else if name = str "ROUND" then
        if args.isEmpty ∨ args.length > 2 then
          .error (.ArgumentCount (str "ROUND") (str "1 or 2") args.length)
        else
          match args with
          | a0 :: restArgs =>
            match evaluate fuel a0 grid with
            | .error e => .error e
            | .ok val =>
              match restArgs with
              | a1 :: _ =>
                match evaluate fuel a1 grid with
                | .error e => .error e
                | .ok dv => fnRoundCore val (((dv.to_number).getD (.finite 0)).toI32)
              | [] => fnRoundCore val 0
          | [] => .error (.ArgumentCount (str "ROUND") (str "1 or 2") args.length)
      else if name = str "SQRT" then
        match args with
        | [a0] =>
          match evaluate fuel a0 grid with
          | .error e => .error e
          | .ok v =>
            match v.to_number with
            | some n => .ok (.Number n.sqrt)
            | none => .error typeErrNonNum
        | _ => .error (.ArgumentCount (str "SQRT") (str "1") args.length)
      else if name = str "POWER" ∨ name = str "POW" then
        match args with
        | [a0, a1] =>
          match evaluate fuel a0 grid with
          | .error e => .error e
          | .ok base =>
            match evaluate fuel a1 grid with
            | .error e => .error e
            | .ok exp =>
              match base.to_number, exp.to_number with
              | some b, some x => .ok (.Number (b.powf x))
              | _, _ => .error typeErrNonNum
        | _ => .error (.ArgumentCount (str "POWER") (str "2") args.length)
      else .error (.UnknownFunction name)

/-! ## Dependency graph and recalculation (`formula.rs`) -/

/-- The petgraph `Graph<CellRef, (), Directed>`: nodes in insertion order
(a node index is its list position); edges in a vector whose position is
the edge id, each a `(source, target)` index pair; and per-node adjacency
lists of edge ids, head = most recently added (petgraph threads `next`
pointers through the edges: linking prepends at the head, and renumbering
an edge keeps its list position).  An edge `u → v` means "v's formula
reads u".  Parallel edges are possible (`add_edge` never deduplicates). -/
structure DiGraph where
  nodes : List CellRef := []
  edges : List (Nat × Nat) := []
  outAdj : List (Nat × List Nat) := []
  inAdj : List (Nat × List Nat) := []
deriving DecidableEq, Repr

/-- Link edge id `i` at the head of node `n`'s adjacency list. -/
def adjCons (n i : Nat) (adj : List (Nat × List Nat)) : List (Nat × List Nat) :=
  match alistGet n adj with
  | some l => alistInsert n (i :: l) adj
  | none => adj ++ [(n, [i])]

/-- Unlink edge id `i` from node `n`'s adjacency list. -/
def adjRemove (n i : Nat) (adj : List (Nat × List Nat)) : List (Nat × List Nat) :=
  alistModify n (fun l => l.erase i) adj

/-- Renumber edge id `oldId` to `newId` in node `n`'s adjacency list,
keeping its position (edge ids are globally unique, so `oldId` occurs at
most once). -/
def adjRenumber (n oldId newId : Nat) (adj : List (Nat × List Nat)) :
    List (Nat × List Nat) :=
  alistModify n (fun l => l.map (fun j => if j = oldId then newId else j)) adj

/-- `Graph::add_edge`: push the edge (its id is the vector's length) and
link it at the head of both endpoints' adjacency lists. -/
def DiGraph.add_edge (g : DiGraph) (a b : Nat) : DiGraph :=
  let i := g.edges.length
  let es := g.edges ++ [(a, b)]
  let oa := adjCons a i g.outAdj
  let ia := adjCons b i g.inAdj
  { g with edges := es, outAdj := oa, inAdj := ia }

/-- `Graph::remove_edge`: unlink edge `i` from its endpoints' adjacency
lists, then `swap_remove` it from the edge vector — the edge with the
largest id is moved into slot `i` and renumbered to `i` in its endpoints'
lists.  An id out of range returns `None` and changes nothing. -/
def DiGraph.remove_edge (g : DiGraph) (i : Nat) : DiGraph :=
  match g.edges.get? i with
  | none => g
  | some (a, b) =>
    let outA := adjRemove a i g.outAdj
    let inA := adjRemove b i g.inAdj
    let lastId := g.edges.length - 1
    if i = lastId then
      { g with edges := g.edges.dropLast, outAdj := outA, inAdj := inA }
    else
      match g.edges.get? lastId with
      | none => g
      | some (c, d) =>
        let es := (g.edges.set i (c, d)).dropLast
        let oa := adjRenumber c lastId i outA
        let ia := adjRenumber d lastId i inA
        { g with edges := es, outAdj := oa, inAdj := ia }

/-- `edges_directed(n, Incoming)`, as edge ids: `n`'s incoming adjacency
list, most recently added first. -/
def DiGraph.incomingIds (g : DiGraph) (n : Nat) : List Nat :=
  (alistGet n g.inAdj).getD []

/-- `Graph::neighbors` (outgoing): the target nodes of `n`'s outgoing
edges in adjacency order (most recently added first). -/
def DiGraph.neighbors (g : DiGraph) (n : Nat) : List Nat :=
  ((alistGet n g.outAdj).getD []).filterMap
    (fun i => (g.edges.get? i).map (fun e => e.2))

/-- The engine: dependency graph, cell-to-node map, and formula store. -/
structure FormulaEngine where
  dep_graph : DiGraph := {}
  cell_to_node : List (CellRef × Nat) := []
  formulas : List (CellRef × Formula) := []

/-- `FormulaEngine::new`. -/
def FormulaEngine.new : FormulaEngine := {}

/-- One dependency step of `register_formula`: look the dependency's node
up (creating it if absent) and add the edge `dep → cell`. -/
def registerStep (cellNode : Nat) (st : DiGraph × List (CellRef × Nat))
    (dep : CellRef) : DiGraph × List (CellRef × Nat) :=
  match alistGet dep st.2 with
  | some j => (st.1.add_edge j cellNode, st.2)
  | none =>
    let j := st.1.nodes.length
    (({ st.1 with nodes := st.1.nodes ++ [dep] }).add_edge j cellNode,
      st.2 ++ [(dep, j)])

/-- `FormulaEngine::register_formula`: ensure a node for the cell, collect
the ids of its incoming edges (`edges_directed(_, Incoming)`, adjacency
order) and remove them one by one — since each `remove_edge` renumbers
the edge with the largest id into the freed slot, a later id in the
collected list may by then name a different edge or none, so this loop
can miss an edge — then add one edge per occurrence in
`formula.dependencies` (creating dependency nodes as needed), and store
the formula. -/
def FormulaEngine.register_formula (fe : FormulaEngine) (cell : CellRef)
    (formula : Formula) : FormulaEngine :=
  let found := alistGet cell fe.cell_to_node
  let cellNode := match found with
    | some i => i
    | none => fe.dep_graph.nodes.length
  let g0 := match found with
    | some _ => fe.dep_graph
    | none => { fe.dep_graph with nodes := fe.dep_graph.nodes ++ [cell] }
  let ctn0 := match found with
    | some _ => fe.cell_to_node
    | none => fe.cell_to_node ++ [(cell, cellNode)]
  let old_edges := g0.incomingIds cellNode
  let g1 := old_edges.foldl DiGraph.remove_edge g0
  let st := formula.dependencies.foldl (registerStep cellNode) (g1, ctn0)
  { dep_graph := st.1
    cell_to_node := st.2
    formulas := alistInsert cell formula fe.formulas }

/-- In-degree of `n` counting only edges whose source is still in
`remaining` (the working notion of Kahn's algorithm). -/
def DiGraph.inDegreeAmong (g : DiGraph) (remaining : List Nat) (n : Nat) : Nat :=
  (g.edges.filter (fun e => e.2 == n && remaining.contains e.1)).length

/-- Kahn's algorithm over node indices, smallest index first among ready
nodes — the model of `petgraph::algo::toposort`: it yields the nodes in a
topological order and fails exactly on a cycle.  (The only order a
verified claim observes is between nodes related by an edge, on which
every topological order agrees.)  One node is removed per step, so fuel
`g.nodes.length` always suffices. -/
def kahnAux (g : DiGraph) : Nat → List Nat → Option (List Nat)
  | _, [] => some []
  | 0, _ :: _ => none
  | fuel + 1, remaining =>
    match remaining.find? (fun n => g.inDegreeAmong remaining n == 0) with
    | none => none
    | some n =>
      match kahnAux g fuel (remaining.erase n) with
      | none => none
      | some order => some (n :: order)

def DiGraph.toposort (g : DiGraph) : Option (List Nat) :=
  kahnAux g g.nodes.length (List.range g.nodes.length)

/-- The dependent-collection loop of `recalculate`: a worklist traversal
over outgoing edges with a visited list (visited in discovery order,
starting from the changed node).  Every node enters the worklist at most
once, so fuel `g.nodes.length + 1` always suffices. -/
def dfsAffected (g : DiGraph) : Nat → List Nat → List Nat → List Nat
  | 0, _, visited => visited
  | fuel + 1, stack, visited =>
    match stack with
    | [] => visited
    | current :: rest =>
      let upd := (g.neighbors current).foldl
        (fun (st : List Nat × List Nat) nb =>
          if st.2.contains nb then st else (st.1 ++ [nb], st.2 ++ [nb]))
        (rest, visited)
      dfsAffected g fuel upd.1 upd.2

mutual

/-- Structural weight of an AST, an upper bound on the evaluator's
recursion depth, supplied as its fuel. -/
def FormulaNode.weight : FormulaNode → Nat
  | .Number _ => 1
  | .Text _ => 1
  | .Boolean _ => 1
  | .CellRef _ => 1
  | .Range _ _ => 1
  | .BinaryOp _ l r => 1 + l.weight + r.weight
  | .UnaryOp _ x => 1 + x.weight
  | .Function _ args => 1 + FormulaNode.weightList args

/-- Weight of an argument list (see `FormulaNode.weight`). -/
def FormulaNode.weightList : List FormulaNode → Nat
  | [] => 1
  | a :: rest => 1 + a.weight + FormulaNode.weightList rest

end

/-- The write-back loop of `recalculate`: in sorted order, evaluate each
affected cell that has a stored formula and write the result through
`set_computed_value`; an error aborts the loop, keeping the writes made
so far (the grid is mutated in place in the source). -/
def recalcLoop (fe : FormulaEngine) : Grid → List CellRef →
    Except FormulaError Unit × Grid
  | grid, [] => (.ok (), grid)
  | grid, cell :: rest =>
    match alistGet cell fe.formulas with
    | none => recalcLoop fe grid rest
    | some formula =>
      match evaluate (formula.ast.weight + 1) formula.ast grid with
      | .error e => (.error e, grid)
      | .ok value =>
        match grid.set_computed_value cell value with
        | .error e => (.error e.toFormulaError, grid)
        | .ok g => recalcLoop fe g rest

/-- `FormulaEngine::recalculate`: collect the transitive dependents of
`changed` (itself included), topologically sort the whole graph — a cycle
aborts with `CircularReference` before anything is written — filter the
order to affected cells, and re-evaluate those with formulas in that
order.  Returns the result together with the (possibly updated) grid. -/
def FormulaEngine.recalculate (fe : FormulaEngine) (grid : Grid)
    (changed : CellRef) : Except FormulaError (List CellRef) × Grid :=
  let affected : List CellRef :=
    match alistGet changed fe.cell_to_node with
    | none => [changed]
    | some node =>
      let visited := dfsAffected fe.dep_graph (fe.dep_graph.nodes.length + 1)
        [node] [node]
      changed :: (visited.drop 1).map
        (fun n => ((fe.dep_graph.nodes.get? n).getD ⟨0, 0⟩))
  match fe.dep_graph.toposort with
  | none => (.error .CircularReference, grid)
  | some sorted =>
    let sorted_cells :=
      (sorted.map (fun i => (fe.dep_graph.nodes.get? i).getD ⟨0, 0⟩)).filter
        (fun c => affected.contains c)
    match recalcLoop fe grid sorted_cells with
    | (.ok _, g) => (.ok sorted_cells, g)
    | (.error e, g) => (.error e, g)

/-! ## Batch patches (`grid.rs`) and the engine facade (`lib.rs`) -/

/-- The update loop of `Grid::apply_patch`: a formula update parses,
registers and stores the formula (in that order); otherwise a value
update parses and stores the literal; an update with neither is a no-op
beyond being recorded as touched.  An error stops the loop, keeping the
mutations made so far. -/
def applyPatchUpdates : FormulaEngine → Grid → List CellUpdate → List CellRef →
    Except GridError Unit × FormulaEngine × Grid × List CellRef
  | fe, g, [], affected => (.ok (), fe, g, affected)
  | fe, g, u :: rest, affected =>
    let cell_ref := CellRef.new u.row u.col
    let affected := affected ++ [cell_ref]
    match u.formula with
    | some f =>
      match FormulaEngine.parse f with
      | .error e => (.error e.toGridError, fe, g, affected)
      | .ok parsed =>
        let fe := fe.register_formula cell_ref parsed
        match g.set_formula cell_ref parsed with
        | .error e => (.error e, fe, g, affected)
        | .ok g => applyPatchUpdates fe g rest affected
    | none =>
      match u.value with
      | some v =>
        match g.set_value cell_ref (CellValue.parse v) with
        | .error e => (.error e, fe, g, affected)
        | .ok g => applyPatchUpdates fe g rest affected
      | none => applyPatchUpdates fe g rest affected

/-- The recalculation loop of `Grid::apply_patch`: recalculate from every
touched cell, folding each returned list into the affected list without
duplicates (first-insertion order). -/
def applyPatchRecalcs (fe : FormulaEngine) : Grid → List CellRef → List CellRef →
    Except GridError (List CellRef) × Grid
  | g, [], affected => (.ok affected, g)
  | g, c :: rest, affected =>
    match fe.recalculate g c with
    | (.error e, g) => (.error e.toGridError, g)
    | (.ok recalcAffected, g) =>
      let affected := recalcAffected.foldl
        (fun acc a => if acc.contains a then acc else acc ++ [a]) affected
      applyPatchRecalcs fe g rest affected

/-- `Grid::apply_patch`. -/
def Grid.apply_patch (g : Grid) (patch : GridPatch) (fe : FormulaEngine) :
    Except GridError (List CellRef) × FormulaEngine × Grid :=
  match applyPatchUpdates fe g patch.updates [] with
  | (.error e, fe, g, _) => (.error e, fe, g)
  | (.ok _, fe, g, affected) =>
    match applyPatchRecalcs fe g affected affected with
    | (.error e, g) => (.error e, fe, g)
    | (.ok result, g) => (.ok result, fe, g)

/-- `SheetEngine` — the wasm facade state (the viewport and renderer play
no part in any claim and are omitted). -/
structure SheetEngine where
  grid : Grid
  formula_engine : FormulaEngine

/-- `SheetEngine::new`. -/
def SheetEngine.new (rows cols : Nat) : SheetEngine :=
  ⟨Grid.new rows cols, FormulaEngine.new⟩

/-- The recalculation-and-diff tail of `SheetEngine::set_cell`. -/
def setCellRecalc (e : SheetEngine) (cell_ref : CellRef) :
    Except Str GridDiff × SheetEngine :=
  match e.formula_engine.recalculate e.grid cell_ref with
  | (.error err, g) => (.error err.toMsg, { e with grid := g })
  | (.ok affected, g) =>
    let e := { e with grid := g }
    (.ok (GridDiff.from_cells e.grid affected), e)

/-- `SheetEngine::set_cell` — the facade edit: a text starting with `=`
is parsed and stored with `Grid::set_formula`, any other text is parsed
as a literal and stored with `Grid::set_value`; then `recalculate` runs
from the edited cell and the diff of the affected cells is returned.
Note that the formula branch never calls `register_formula`.  Errors
surface as their `JsValue` display strings. -/
def SheetEngine.set_cell (e : SheetEngine) (row col : Nat) (value : Str) :
    Except Str GridDiff × SheetEngine :=
  let cell_ref := CellRef.new row col
  if value.head? = some (Char.ofNat 61) then
    match FormulaEngine.parse value with
    | .error err => (.error err.toMsg, e)
    | .ok formula =>
      match e.grid.set_formula cell_ref formula with
      | .error err => (.error err.toMsg, e)
      | .ok g => setCellRecalc { e with grid := g } cell_ref
  else
    match e.grid.set_value cell_ref (CellValue.parse value) with
    | .error err => (.error err.toMsg, e)
    | .ok g => setCellRecalc { e with grid := g } cell_ref

/-- `SheetEngine::apply_patch`. -/
def SheetEngine.apply_patch (e : SheetEngine) (patch : GridPatch) :
    Except Str GridDiff × SheetEngine :=
  match e.grid.apply_patch patch e.formula_engine with
  | (.error err, fe, g) => (.error err.toMsg, ⟨g, fe⟩)
  | (.ok affected, fe, g) =>
    (.ok (GridDiff.from_cells g affected), ⟨g, fe⟩)

/-- The value stored at a ref, `Empty` when the cell is absent — the view
the evaluator has of the grid. -/
def Grid.value_at (g : Grid) (r : CellRef) : CellValue :=
  ((g.get_cell r).map Cell.value).getD .Empty

/-! ## JSON codec (`grid.rs` + serde derives)

`Grid::to_json` / `Grid::from_json` delegate to `serde_json` over the
derived `Serialize`/`Deserialize` of `Grid`.  The codec is modelled at the
JSON *value* level: serde_json prints a shortest round-trip decimal for
every finite double and parses it back to the identical double, so finite
numbers are carried by their exact rational value; a non-finite double
serializes as `null` (and deserializing a plain `f64` from `null` fails).
Map keys are decimal strings.  Struct fields serialize in declaration
order; deserialization looks fields up by name, applying the
`#[serde(default)]` attributes for missing ones.  The text of a
serde_json error message is abstracted to a fixed string. -/

inductive Json where
  | null
  | bool (b : Bool)
  | num (q : ℚ)
  | strv (s : Str)
  | arr (xs : List Json)
  | obj (fields : List (Str × Json))

/-- Object field lookup (serde matches fields by name). -/
def jGet (fields : List (Str × Json)) (name : Str) : Option Json :=
  match fields with
  | [] => none
  | (k, v) :: rest => if k = name then some v else jGet rest name

/-- A `f64` (or `f32`) as a JSON value. -/
def encodeF64 : F64 → Json
  | .finite q => .num q
  | _ => .null

/-- A `u32` as a JSON value. -/
def encodeU32 (n : Nat) : Json := .num (n : ℚ)

/-- `CellValue` with `#[serde(tag = "type", content = "value")]`. -/
def encodeCellValue : CellValue → Json
  | .Empty => .obj [(str "type", .strv (str "Empty"))]
  | .Text s => .obj [(str "type", .strv (str "Text")), (str "value", .strv s)]
  | .Number n => .obj [(str "type", .strv (str "Number")), (str "value", encodeF64 n)]
  | .Boolean b => .obj [(str "type", .strv (str "Boolean")), (str "value", .bool b)]
  | .Error e => .obj [(str "type", .strv (str "Error")), (str "value", .strv e)]

def encodeAlignH : HorizontalAlign → Json
  | .Left => .strv (str "left")
  | .Center => .strv (str "center")
  | .Right => .strv (str "right")

def encodeAlignV : VerticalAlign → Json
  | .Top => .strv (str "top")
  | .Middle => .strv (str "middle")
  | .Bottom => .strv (str "bottom")

/-- An optional field: present only when `some` (the
`skip_serializing_if = "Option::is_none"` attributes). -/
def optField (name : Str) (v : Option Json) : List (Str × Json) :=
  match v with
  | none => []
  | some j => [(name, j)]

/-- `CellFormat` (every field optional and skipped when `None`). -/
def encodeCellFormat (f : CellFormat) : Json :=
  .obj (optField (str "number_format") (f.number_format.map .strv) ++
    optField (str "font_bold") (f.font_bold.map .bool) ++
    optField (str "font_italic") (f.font_italic.map .bool) ++
    optField (str "font_underline") (f.font_underline.map .bool) ++
    optField (str "font_family") (f.font_family.map .strv) ++
    optField (str "font_size") (f.font_size.map encodeF64) ++
    optField (str "font_color") (f.font_color.map .strv) ++
    optField (str "bg_color") (f.bg_color.map .strv) ++
    optField (str "align_h") (f.align_h.map encodeAlignH) ++
    optField (str "align_v") (f.align_v.map encodeAlignV))

/-- `Cell`: required `value`, optional `formula` and `format`. -/
def encodeCell (c : Cell) : Json :=
  .obj ([(str "value", encodeCellValue c.value)] ++
    optField (str "formula") (c.formula.map .strv) ++
    optField (str "format") (c.format.map encodeCellFormat))

/-- A `u32`-keyed map as a JSON object with decimal-string keys. -/
def encodeNatMap {α : Type} (enc : α → Json) (l : List (Nat × α)) : Json :=
  .obj (l.map (fun p => (natToStr p.1, enc p.2)))

/-- The derived `Serialize` of `Grid` (fields in declaration order). -/
def Grid.to_json (g : Grid) : Json :=
  .obj [(str "rows", encodeU32 g.rows),
        (str "cols", encodeU32 g.cols),
        (str "columns", encodeNatMap (encodeNatMap encodeCell) g.columns),
        (str "col_widths", encodeNatMap encodeF64 g.col_widths),
        (str "row_heights", encodeNatMap encodeF64 g.row_heights),
        (str "default_col_width", encodeF64 g.default_col_width),
        (str "default_row_height", encodeF64 g.default_row_height)]

/-- Deserialize a `u32`: a JSON integer in range (a float or anything
else fails). -/
def decodeU32 : Json → Option Nat
  | .num q => if q.den = 1 ∧ 0 ≤ q.num ∧ q.num < 4294967296 then some q.num.toNat else none
  | _ => none

/-- Deserialize a `f64`/`f32`: a JSON number (in particular, the `null`
written for a non-finite double fails). -/
def decodeF64 : Json → Option F64
  | .num q => some (.finite q)
  | _ => none

def decodeStr : Json → Option Str
  | .strv s => some s
  | _ => none

def decodeBool : Json → Option Bool
  | .bool b => some b
  | _ => none

def decodeAlignH : Json → Option HorizontalAlign
  | .strv s =>
    if s = str "left" then some .Left
    else if s = str "center" then some .Center
    else if s = str "right" then some .Right
    else none
  | _ => none

def decodeAlignV : Json → Option VerticalAlign
  | .strv s =>
    if s = str "top" then some .Top
    else if s = str "middle" then some .Middle
    else if s = str "bottom" then some .Bottom
    else none
  | _ => none

/-- Deserialize an optional field: missing means `None`, present must
decode. -/
def decodeOptField {α : Type} (dec : Json → Option α) :
    Option Json → Option (Option α)
  | none => some none
  | some j => (dec j).map some

/-- Deserialize a `CellValue` (adjacently tagged). -/
def decodeCellValue : Json → Option CellValue
  | .obj fields =>
    match jGet fields (str "type") with
    | some (.strv t) =>
      if t = str "Empty" then some .Empty
      else if t = str "Text" then
        ((jGet fields (str "value")).bind decodeStr).map CellValue.Text
      else if t = str "Number" then
        ((jGet fields (str "value")).bind decodeF64).map CellValue.Number
      else if t = str "Boolean" then
        ((jGet fields (str "value")).bind decodeBool).map CellValue.Boolean
      else if t = str "Error" then
        ((jGet fields (str "value")).bind decodeStr).map CellValue.Error
      else none
    | _ => none
  | _ => none

/-- Deserialize a `CellFormat`. -/
def decodeCellFormat : Json → Option CellFormat
  | .obj fields =>
    match decodeOptField decodeStr (jGet fields (str "number_format")),
          decodeOptField decodeBool (jGet fields (str "font_bold")),
          decodeOptField decodeBool (jGet fields (str "font_italic")),
          decodeOptField decodeBool (jGet fields (str "font_underline")),
          decodeOptField decodeStr (jGet fields (str "font_family")),
          decodeOptField decodeF64 (jGet fields (str "font_size")),
          decodeOptField decodeStr (jGet fields (str "font_color")),
          decodeOptField decodeStr (jGet fields (str "bg_color")),
          decodeOptField decodeAlignH (jGet fields (str "align_h")),
          decodeOptField decodeAlignV (jGet fields (str "align_v")) with
    | some nf, some fb, some fi, some fu, some ff, some fs, some fc, some bg,
        some ah, some av => some ⟨nf, fb, fi, fu, ff, fs, fc, bg, ah, av⟩
    | _, _, _, _, _, _, _, _, _, _ => none
  | _ => none

/-- Deserialize a `Cell`. -/
def decodeCell : Json → Option Cell
  | .obj fields =>
    match (jGet fields (str "value")).bind decodeCellValue,
          decodeOptField decodeStr (jGet fields (str "formula")),
          decodeOptField decodeCellFormat (jGet fields (str "format")) with
    | some v, some fla, some fmt => some ⟨v, fla, fmt⟩
    | _, _, _ => none
  | _ => none

/-- Deserialize a `u32`-keyed map (keys are decimal strings). -/
def decodeNatMapFields {α : Type} (dec : Json → Option α) :
    List (Str × Json) → Option (List (Nat × α))
  | [] => some []
  | (k, j) :: rest =>
    match parseU32 k, dec j, decodeNatMapFields dec rest with
    | some n, some v, some tail => some ((n, v) :: tail)
    | _, _, _ => none

def decodeNatMap {α : Type} (dec : Json → Option α) : Json → Option (List (Nat × α))
  | .obj fields => decodeNatMapFields dec fields
  | _ => none

/-- The abstracted serde_json error. -/
def serdeErr : GridError := .Serialization (str "invalid grid JSON")

/-- An optional-with-default field of `Grid` (the `#[serde(default)]`
attributes): a missing field falls back, a present one must decode. -/
def decFieldD {α : Type} (dec : Json → Option α) (dflt : α) :
    Option Json → Option α
  | none => some dflt
  | some j => dec j

/-- The object payload of a JSON value, if any. -/
def Json.objFields : Json → Option (List (Str × Json))
  | .obj fields => some fields
  | _ => none

/-!  The derived `Deserialize` of `Grid`, staged field by field:
`rows` and `cols` are required, the maps and defaults fall back to their
`#[serde(default)]` values when missing.  All fields must decode (checked
sequentially; the abstracted error does not record which field failed). -/

/-- `Grid` deserialization, last stage: `default_row_height`. -/
def fromJson7 (fields : List (Str × Json)) (rows cols : Nat)
    (columns : List (Nat × Column)) (cw rh : List (Nat × F64)) (dcw : F64) :
    Except GridError Grid :=
  match decFieldD decodeF64 (.finite 24) (jGet fields (str "default_row_height")) with
  | none => .error serdeErr
  | some drh => .ok ⟨rows, cols, columns, cw, rh, dcw, drh⟩

/-- `Grid` deserialization: `default_col_width`. -/
def fromJson6 (fields : List (Str × Json)) (rows cols : Nat)
    (columns : List (Nat × Column)) (cw rh : List (Nat × F64)) :
    Except GridError Grid :=
  match decFieldD decodeF64 (.finite 100) (jGet fields (str "default_col_width")) with
  | none => .error serdeErr
  | some dcw => fromJson7 fields rows cols columns cw rh dcw

/-- `Grid` deserialization: `row_heights`. -/
def fromJson5 (fields : List (Str × Json)) (rows cols : Nat)
    (columns : List (Nat × Column)) (cw : List (Nat × F64)) :
    Except GridError Grid :=
  match decFieldD (decodeNatMap decodeF64) [] (jGet fields (str "row_heights")) with
  | none => .error serdeErr
  | some rh => fromJson6 fields rows cols columns cw rh

/-- `Grid` deserialization: `col_widths`. -/
def fromJson4 (fields : List (Str × Json)) (rows cols : Nat)
    (columns : List (Nat × Column)) : Except GridError Grid :=
  match decFieldD (decodeNatMap decodeF64) [] (jGet fields (str "col_widths")) with
  | none => .error serdeErr
  | some cw => fromJson5 fields rows cols columns cw

/-- `Grid` deserialization: `columns`. -/
def fromJson3 (fields : List (Str × Json)) (rows cols : Nat) :
    Except GridError Grid :=
  match decFieldD (decodeNatMap (decodeNatMap decodeCell)) []
      (jGet fields (str "columns")) with
  | none => .error serdeErr
  | some columns => fromJson4 fields rows cols columns

/-- `Grid` deserialization: `cols`. -/
def fromJson2 (fields : List (Str × Json)) (rows : Nat) :
    Except GridError Grid :=
  match (jGet fields (str "cols")).bind decodeU32 with
  | none => .error serdeErr
  | some cols => fromJson3 fields rows cols

/-- `Grid` deserialization: `rows`. -/
def fromJsonFields (fields : List (Str × Json)) : Except GridError Grid :=
  match (jGet fields (str "rows")).bind decodeU32 with
  | none => .error serdeErr
  | some rows => fromJson2 fields rows

/-- `Grid::from_json` (see the stages above). -/
def Grid.from_json (j : Json) : Except GridError Grid :=
  match j.objFields with
  | none => .error serdeErr
  | some fields => fromJsonFields fields

/-- The field list `Grid.to_json` produces, with the components spelled
out (used to reason about the round trip field by field). -/
def gridFieldsJson (rows cols : Nat) (columns : List (Nat × Column))
    (cw rh : List (Nat × F64)) (dcw drh : F64) : List (Str × Json) :=
  [(str "rows", encodeU32 rows),
   (str "cols", encodeU32 cols),
   (str "columns", encodeNatMap (encodeNatMap encodeCell) columns),
   (str "col_widths", encodeNatMap encodeF64 cw),
   (str "row_heights", encodeNatMap encodeF64 rh),
   (str "default_col_width", encodeF64 dcw),
   (str "default_row_height", encodeF64 drh)]

/-! ## Scenario states and claim-level predicates -/

/-- A fresh 100×100 engine. -/
def engC : SheetEngine := SheetEngine.new 100 100

/-- `A1 ← "10"` through the facade. -/
def engC1a : SheetEngine := (engC.set_cell 0 0 (str "10")).2

/-- then `A2 ← "20"`. -/
def engC1b : SheetEngine := (engC1a.set_cell 1 0 (str "20")).2

/-- then `A3 ← "=SUM(A1:A2)"`: result and state of the third edit. -/
def resC1 : Except Str GridDiff × SheetEngine :=
  engC1b.set_cell 2 0 (str "=SUM(A1:A2)")

/-- `A1 ← "5"` through the facade. -/
def engC1d : SheetEngine := (engC.set_cell 0 0 (str "5")).2

/-- then `B1 ← "=A1*2"`. -/
def engC1e : SheetEngine := (engC1d.set_cell 0 1 (str "=A1*2")).2

/-- then `A1 ← "7"`: result and state of the re-edit. -/
def resC1b : Except Str GridDiff × SheetEngine := engC1e.set_cell 0 0 (str "7")

/-- `A1 ← "=10/0"` through the facade. -/
def resC2 : Except Str GridDiff × SheetEngine := engC.set_cell 0 0 (str "=10/0")

/-- `A1 ← "=B1"` as a one-update patch (the edit path that registers the
formula with the dependency graph). -/
def engC3a : SheetEngine :=
  (engC.apply_patch ⟨[⟨0, 0, none, some (str "=B1")⟩]⟩).2

/-- then `B1 ← "=A1"`, closing the cycle. -/
def resC3 : Except Str GridDiff × SheetEngine :=
  engC3a.apply_patch ⟨[⟨0, 1, none, some (str "=A1")⟩]⟩

/-- The engine state after the failed second edit. -/
def engC3b : SheetEngine := resC3.2

/-- `A1 ← "=(1+2)*3"` as a one-update patch. -/
def resC4 : Except Str GridDiff × SheetEngine :=
  engC.apply_patch ⟨[⟨0, 0, none, some (str "=(1+2)*3")⟩]⟩

/-- `A1 ← "=1+2*3"` as a one-update patch. -/
def resC7 : Except Str GridDiff × SheetEngine :=
  engC.apply_patch ⟨[⟨0, 0, none, some (str "=1+2*3")⟩]⟩

/-- A trivial stored formula (`=1`), used to give a cell a formula
attribute. -/
def fmlaOne : Formula := ⟨str "=1", .Number (.finite 1), []⟩

/-- The 10×10 grid holding only the formula cell A1. -/
def gC6f : Grid :=
  { rows := 10, cols := 10,
    columns := [(0, [(0, ⟨.Empty, some (str "=1"), none⟩)])] }

/-- The formula parsed from `=A1+A1`, whose dependency list holds A1
twice. -/
def dupFormula : Formula :=
  ⟨str "=A1+A1", .BinaryOp .Add (.CellRef ⟨0, 0⟩) (.CellRef ⟨0, 0⟩),
    [⟨0, 0⟩, ⟨0, 0⟩]⟩

/-- The engine after registering `=A1+A1` on B1. -/
def engC5 : FormulaEngine := FormulaEngine.new.register_formula ⟨0, 1⟩ dupFormula

/-- The incoming edges of the node of `cell`, rendered as the cells at
their source nodes (in adjacency order, most recently added first); `[]`
when the cell has no node. -/
def FormulaEngine.incomingSources (fe : FormulaEngine) (cell : CellRef) :
    List (Option CellRef) :=
  match alistGet cell fe.cell_to_node with
  | none => []
  | some n =>
    (fe.dep_graph.incomingIds n).map
      (fun i => (fe.dep_graph.edges.get? i).bind
        (fun e => fe.dep_graph.nodes.get? e.1))

/-- `=A1` for B1 (dependency A1). -/
def fmlaB1 : Formula := ⟨str "=A1", .CellRef ⟨0, 0⟩, [⟨0, 0⟩]⟩

/-- `=C1+D1` for A2 (dependencies C1, D1). -/
def fmlaA2 : Formula :=
  ⟨str "=C1+D1", .BinaryOp .Add (.CellRef ⟨0, 2⟩) (.CellRef ⟨0, 3⟩),
    [⟨0, 2⟩, ⟨0, 3⟩]⟩

/-- `=E1` for A2 (dependency E1). -/
def fmlaE1 : Formula := ⟨str "=E1", .CellRef ⟨0, 4⟩, [⟨0, 4⟩]⟩

/-- Four registrations that drive `remove_edge`'s swap-remove renumbering
ahead of a collected id: B1 ← `=A1`; A2 ← `=C1+D1`; B1 ← `=1` (removing
A1 → B1 renumbers D1 → A2 from id 2 to id 0); A2 ← `=E1` (the collected
incoming ids [0, 1] remove D1 → A2 and then miss: removing id 0 renumbers
C1 → A2 from 1 to 0, so removing id 1 is a no-op). -/
def engC5stale : FormulaEngine :=
  (((FormulaEngine.new.register_formula ⟨0, 1⟩ fmlaB1).register_formula
      ⟨1, 0⟩ fmlaA2).register_formula ⟨0, 1⟩ fmlaOne).register_formula
    ⟨1, 0⟩ fmlaE1

/-- The value's number, if any, is finite (no `nan` or infinity). -/
def CellValue.finiteNum : CellValue → Prop
  | .Number (.finite _) => True
  | .Number _ => False
  | _ => True

/-- A value-only grid: built by `Grid::new` (with `u32` dimensions)
followed by any sequence of successful `set_value` calls. -/
inductive ValueOnly : Grid → Prop where
  | new (rows cols : Nat) (hr : rows < 4294967296) (hc : cols < 4294967296) :
      ValueOnly (Grid.new rows cols)
  | step (g : Grid) (r : CellRef) (v : CellValue) (g' : Grid)
      (hg : ValueOnly g) (hs : g.set_value r v = .ok g') : ValueOnly g'

/-- Every number stored in the grid is finite. -/
def GridFinite (g : Grid) : Prop :=
  ∀ p ∈ g.columns, ∀ q ∈ p.2, q.2.value.finiteNum

/-- The grid holding `Number(nan)` in A1 (reachable by one `set_value`). -/
def gNan : Grid :=
  { rows := 5, cols := 5, columns := [(0, [(0, Cell.new (.Number .nan))])] }

/-- The grid holding `Number(42)` in A1 (reachable by one `set_value`). -/
def g42 : Grid :=
  { rows := 3, cols := 3, columns := [(0, [(0, Cell.new (.Number (.finite 42)))])] }

/-- The grid of the C10 scenario: A1 holds an `Error` value. -/
def gC10 : Grid :=
  { rows := 10, cols := 10,
    columns := [(0, [(0, Cell.new (.Error (str "DIV/0")))]),
                (1, [(0, ⟨.Empty, some (str "=A1+1"), none⟩)])] }

/-- The engine of the C10 scenario: B1's formula `=A1+1` is registered. -/
def feC10 : FormulaEngine :=
  FormulaEngine.new.register_formula ⟨0, 1⟩
    ⟨str "=A1+1", .BinaryOp .Add (.CellRef ⟨0, 0⟩) (.Number (.finite 1)),
      [⟨0, 0⟩]⟩

/-! ## Helper lemmas -/

theorem toNat_ofNat_of_lt {m : Nat} (h : m < 55296) : (Char.ofNat m).toNat = m := by
  have hv : Nat.isValidChar m := Or.inl h
  simp only [Char.ofNat, hv, dif_pos]
  rfl

theorem natDigitsRev_zero : natDigitsRev 0 = [] := by
  rw [natDigitsRev]; simp

theorem natDigitsRev_pos {n : Nat} (h : n ≠ 0) :
    natDigitsRev n = (n % 10) :: natDigitsRev (n / 10) := by
  rw [natDigitsRev]; simp [h]

theorem digit_char_toNat {d : Nat} (h : d < 10) :
    (Char.ofNat (48 + d)).toNat = 48 + d :=
  toNat_ofNat_of_lt (by omega)

theorem digit_char_isDigit {d : Nat} (h : d < 10) :
    isAsciiDigit (Char.ofNat (48 + d)) = true := by
  simp [isAsciiDigit, digit_char_toNat h]; omega

theorem natDigitsRev_lt (n : Nat) : ∀ d ∈ natDigitsRev n, d < 10 := by
  induction n using Nat.strong_induction_on with
  | _ n ih =>
    by_cases hn : n = 0
    · subst hn; rw [natDigitsRev_zero]; intro d hd; cases hd
    · rw [natDigitsRev_pos hn]
      intro d hd
      rw [List.mem_cons] at hd
      rcases hd with rfl | hmem
      · exact Nat.mod_lt _ (by norm_num)
      · exact ih (n / 10) (Nat.div_lt_self (Nat.pos_of_ne_zero hn) (by norm_num)) d hmem

theorem digitsVal_rev (n : Nat) (acc : Nat) :
    List.foldl (fun a c => a * 10 + (c.toNat - 48)) acc
      (((natDigitsRev n).reverse).map (fun d => Char.ofNat (48 + d))) =
    acc * 10 ^ (natDigitsRev n).length + n := by
  induction n using Nat.strong_induction_on generalizing acc with
  | _ n ih =>
    by_cases h : n = 0
    · subst h; simp [natDigitsRev_zero]
    · rw [natDigitsRev_pos h]
      have hd : n / 10 < n := Nat.div_lt_self (Nat.pos_of_ne_zero h) (by norm_num)
      have hdig : (Char.ofNat (48 + n % 10)).toNat = 48 + n % 10 :=
        digit_char_toNat (Nat.mod_lt _ (by norm_num))
      simp only [List.reverse_cons, List.map_append, List.map_cons, List.map_nil,
        List.foldl_append, List.foldl_cons, List.foldl_nil, List.length_cons]
      rw [ih (n / 10) hd acc, hdig]
      rw [pow_succ]
      have := Nat.div_add_mod n 10
      ring_nf
      omega

theorem digitsVal_natToStr (n : Nat) : digitsVal (natToStr n) = n := by
  by_cases h : n = 0
  · subst h; simp [natToStr, digitsVal, toNat_ofNat_of_lt]
  · simp only [natToStr, h, if_false, digitsVal]
    have := digitsVal_rev n 0
    simpa using this

theorem natToStr_all_digits (n : Nat) : (natToStr n).all isAsciiDigit = true := by
  by_cases h : n = 0
  · subst h; simp [natToStr]
    have : (48 + 0 : Nat) = 48 := rfl
    have := digit_char_isDigit (d := 0) (by norm_num)
    simpa using this
  · simp only [natToStr, h, if_false, List.all_eq_true]
    intro c hc
    rcases List.mem_map.mp hc with ⟨d, hd, rfl⟩
    exact digit_char_isDigit (natDigitsRev_lt n d (List.mem_reverse.mp hd))

theorem natToStr_ne_nil (n : Nat) : natToStr n ≠ [] := by
  by_cases h : n = 0
  · subst h; simp [natToStr]
  · simp only [natToStr, h, if_false]
    rw [natDigitsRev_pos h]
    simp

theorem natToStr_head_not_plus (n : Nat) :
    ∀ c rest, natToStr n = c :: rest → c.toNat ≠ 43 := by
  intro c rest hc
  have hall := natToStr_all_digits n
  rw [hc] at hall
  simp only [List.all_cons, Bool.and_eq_true] at hall
  have := hall.1
  simp only [isAsciiDigit, Bool.and_eq_true, decide_eq_true_eq] at this
  omega

/-- `u32` decimal round-trip: rendering then parsing is the identity below
`2^32`. -/
theorem parseU32_natToStr {n : Nat} (h : n < 4294967296) :
    parseU32 (natToStr n) = some n := by
  have hne := natToStr_ne_nil n
  have hall := natToStr_all_digits n
  have hval := digitsVal_natToStr n
  unfold parseU32
  rcases hcons : natToStr n with _ | ⟨c, rest⟩
  · exact absurd hcons hne
  · have hplus := natToStr_head_not_plus n c rest hcons
    rw [hcons] at hall hval
    simp only [hplus, if_false, List.isEmpty_cons, Bool.false_eq_true, if_false, hall, if_true,
      hval, h, if_true]

theorem col_to_letter_base {col : Nat} (h : col < 26) :
    col_to_letter col = [Char.ofNat (65 + col % 26)] := by
  rw [col_to_letter]; simp [h]

theorem col_to_letter_step {col : Nat} (h : ¬ col < 26) :
    col_to_letter col = col_to_letter (col / 26 - 1) ++ [Char.ofNat (65 + col % 26)] := by
  rw [col_to_letter]; simp [h]

theorem letter_char_toNat {d : Nat} (h : d < 26) :
    (Char.ofNat (65 + d)).toNat = 65 + d :=
  toNat_ofNat_of_lt (by omega)

theorem letter_char_alpha {d : Nat} (h : d < 26) :
    isAsciiAlphabetic (Char.ofNat (65 + d)) = true := by
  simp only [isAsciiAlphabetic, letter_char_toNat h, Bool.or_eq_true, Bool.and_eq_true,
    decide_eq_true_eq]
  left
  omega

theorem letter_char_upper {d : Nat} (h : d < 26) :
    toAsciiUpper (Char.ofNat (65 + d)) = Char.ofNat (65 + d) := by
  unfold toAsciiUpper
  rw [letter_char_toNat h, if_neg]
  simp only [Bool.and_eq_true, decide_eq_true_eq, not_and]
  omega

theorem col_to_letter_all_alpha (col : Nat) :
    (col_to_letter col).all isAsciiAlphabetic = true := by
  induction col using Nat.strong_induction_on with
  | _ col ih =>
    by_cases h : col < 26
    · rw [col_to_letter_base h]
      simp [letter_char_alpha (Nat.mod_lt _ (by norm_num))]
    · rw [col_to_letter_step h]
      have hlt : col / 26 - 1 < col := by
        have : col / 26 < col := Nat.div_lt_self (by omega) (by norm_num)
        omega
      simp [List.all_append, ih _ hlt, letter_char_alpha (Nat.mod_lt _ (by norm_num))]

/-- The letter fold over `col_to_letter n` computes the bijective base-26
value `n + 1`, threaded through an arbitrary accumulator, as long as the
result stays below `2^32` (so the wrapping product never wraps). -/
theorem letter_fold_col_to_letter (n : Nat) : ∀ acc : Nat,
    acc * 26 ^ (col_to_letter n).length + (n + 1) < 4294967296 →
    (col_to_letter n).foldl
      (fun col c => (col * 26 + ((toAsciiUpper c).toNat - 65 + 1)) % 4294967296) acc =
    acc * 26 ^ (col_to_letter n).length + (n + 1) := by
  induction n using Nat.strong_induction_on with
  | _ n ih =>
    intro acc hbound
    have hdlt : n % 26 < 26 := Nat.mod_lt _ (by norm_num)
    by_cases h : n < 26
    · rw [col_to_letter_base h] at hbound ⊢
      simp only [List.foldl_cons, List.foldl_nil, letter_char_upper hdlt,
        letter_char_toNat hdlt, List.length_cons, List.length_nil, Nat.zero_add,
        pow_one] at hbound ⊢
      have hmod : n % 26 = n := Nat.mod_eq_of_lt h
      rw [hmod]
      omega
    · have hlt : n / 26 - 1 < n := by
        have : n / 26 < n := Nat.div_lt_self (by omega) (by norm_num)
        omega
      rw [col_to_letter_step h] at hbound ⊢
      rw [List.foldl_append]
      simp only [List.length_append, List.length_cons, List.length_nil,
        Nat.zero_add] at hbound ⊢
      set m := n / 26 - 1 with hm
      set L := (col_to_letter m).length with hL
      have hmn : m + 1 = n / 26 := by
        have : 1 ≤ n / 26 := (Nat.one_le_div_iff (by norm_num)).mpr (by omega)
        omega
      have hpowmul : acc * 26 ^ (L + 1) = acc * 26 ^ L * 26 := by
        rw [pow_succ, mul_assoc]
      have hrec : acc * 26 ^ L + (m + 1) < 4294967296 := by
        have hpow : acc * 26 ^ L ≤ acc * 26 ^ (L + 1) :=
          Nat.mul_le_mul_left _ (Nat.pow_le_pow_right (by norm_num) (by omega))
        have hdiv : n / 26 ≤ n := Nat.div_le_self n 26
        omega
      rw [ih m hlt acc hrec]
      simp only [List.foldl_cons, List.foldl_nil, letter_char_upper hdlt,
        letter_char_toNat hdlt]
      rw [hpowmul] at hbound ⊢
      have hdm : 26 * (n / 26) + n % 26 = n := Nat.div_add_mod n 26
      generalize acc * 26 ^ L = A at hbound ⊢
      omega

/-- The bijective base-26 round-trip, general form: for `n + 1 < 2^32`,
`letter_to_col (col_to_letter n) = some n`. -/
theorem letter_to_col_col_to_letter {n : Nat} (h : n + 1 < 4294967296) :
    letter_to_col (col_to_letter n) = some n := by
  unfold letter_to_col
  rw [col_to_letter_all_alpha n, if_pos rfl]
  have hb : 0 * 26 ^ (col_to_letter n).length + (n + 1) < 4294967296 := by
    simpa using h
  rw [letter_fold_col_to_letter n 0 hb]
  simp

/-! ## Association-list lemmas -/

theorem alistGet_insert_self {κ α : Type} [DecidableEq κ] (k : κ) (v : α)
    (l : List (κ × α)) : alistGet k (alistInsert k v l) = some v := by
  induction l with
  | nil => simp [alistGet, alistInsert]
  | cons p rest ih =>
    by_cases h : p.1 = k
    · simp [alistInsert, alistGet, h]
    · simpa [alistInsert, alistGet, h] using ih

theorem alistGet_remove_self {κ α : Type} [DecidableEq κ] (k : κ)
    (l : List (κ × α)) : alistGet k (alistRemove k l) = none := by
  induction l with
  | nil => simp [alistGet, alistRemove]
  | cons p rest ih =>
    by_cases h : p.1 = k
    · simpa [alistRemove, alistGet, h] using ih
    · simpa [alistRemove, alistGet, h] using ih

theorem mem_alistInsert {κ α : Type} [DecidableEq κ] (k : κ) (v : α)
    (l : List (κ × α)) :
    ∀ p ∈ alistInsert k v l, p = (k, v) ∨ p ∈ l := by
  induction l with
  | nil => intro p hp; simp [alistInsert] at hp; left; exact hp
  | cons q rest ih =>
    intro p hp
    by_cases h : q.1 = k
    · simp only [alistInsert, h, if_pos, List.mem_cons] at hp
      rcases hp with rfl | hp
      · left; rfl
      · right; exact List.mem_cons_of_mem _ hp
    · simp only [alistInsert, h, if_neg, not_false_iff, List.mem_cons] at hp
      rcases hp with rfl | hp
      · right; exact List.mem_cons_self _ _
      · rcases ih p hp with h1 | h1
        · left; exact h1
        · right; exact List.mem_cons_of_mem _ h1

theorem alistGet_append_of_some {κ α : Type} [DecidableEq κ] {k : κ} {v : α}
    {l1 : List (κ × α)} (l2 : List (κ × α)) (h : alistGet k l1 = some v) :
    alistGet k (l1 ++ l2) = some v := by
  induction l1 with
  | nil => simp [alistGet] at h
  | cons p rest ih =>
    by_cases hp : p.1 = k
    · simp only [alistGet, hp, if_pos] at h ⊢
      simpa using h
    · simp only [alistGet, hp, if_neg, not_false_iff] at h ⊢
      exact ih h

theorem alistGet_append_of_none {κ α : Type} [DecidableEq κ] {k : κ}
    {l1 : List (κ × α)} (l2 : List (κ × α)) (h : alistGet k l1 = none) :
    alistGet k (l1 ++ l2) = alistGet k l2 := by
  induction l1 with
  | nil => simp
  | cons p rest ih =>
    by_cases hp : p.1 = k
    · simp [alistGet, hp] at h
    · simp only [alistGet, hp, if_neg, not_false_iff, List.cons_append] at h ⊢
      exact ih h

/-! ## Claim theorems -/

/-- C8: for every column index `n` with `n < 10^6`,
`letter_to_col (col_to_letter n) = some n` — the bijective base-26 column
encoding round-trips. -/
theorem c8_column_roundtrip (n : Nat) (h : n < 1000000) :
    letter_to_col (col_to_letter n) = some n :=
  letter_to_col_col_to_letter (by omega)

/-- C8 witness at `n = 702` (the first three-letter column, `AAA`). -/
theorem c8_column_roundtrip_witness :
    702 < 1000000 ∧ letter_to_col (col_to_letter 702) = some 702 :=
  ⟨by norm_num, c8_column_roundtrip 702 (by norm_num)⟩

/-- C1 (code bug): the facade `set_cell` parses and stores a formula but
never registers it with the dependency engine, so the formula is never
evaluated.  After `A1 ← "10"`, `A2 ← "20"`, `A3 ← "=SUM(A1:A2)"`, A3
still holds `Empty` and displays `""` (not `"30"`) and the edit's diff is
empty — even though the parsed AST of the formula does evaluate to
`Number 30` against that very grid.  Likewise after `A1 ← "5"`,
`B1 ← "=A1*2"`, `A1 ← "7"`, B1 displays `""` (not `"14"`) and the second
edit's diff is empty instead of listing A1 before B1. -/
theorem c1_set_cell_never_evaluates :
    resC1.2.grid.value_at ⟨2, 0⟩ = .Empty ∧
    (resC1.2.grid.get_cell ⟨2, 0⟩).map Cell.display = some [] ∧
    resC1.1 = .ok ⟨[]⟩ ∧
    (FormulaEngine.parse (str "=SUM(A1:A2)")).map
      (fun f => evaluate (f.ast.weight + 1) f.ast engC1b.grid) =
      .ok (.ok (.Number (.finite 30))) ∧
    (resC1b.2.grid.get_cell ⟨0, 1⟩).map Cell.display = some [] ∧
    resC1b.1 = .ok ⟨[]⟩ := by
  refine ⟨?_, ?_, ?_, ?_, ?_, ?_⟩
  · with_unfolding_all decide
  · with_unfolding_all decide
  · with_unfolding_all rfl
  · with_unfolding_all rfl
  · with_unfolding_all decide
  · with_unfolding_all rfl

/-- C2 counterexample: after `A1 ← "=10/0"` through `set_cell`, A1's cell
does not hold `Error("DIV/0")` — it holds `Empty` and displays `""`. -/
theorem c2_counterexample :
    resC2.2.grid.value_at ⟨0, 0⟩ = .Empty ∧
    resC2.2.grid.value_at ⟨0, 0⟩ ≠ .Error (str "DIV/0") ∧
    (resC2.2.grid.get_cell ⟨0, 0⟩).map Cell.display = some [] := by
  refine ⟨?_, ?_, ?_⟩
  · with_unfolding_all decide
  · with_unfolding_all decide
  · with_unfolding_all decide

/-- C2 as amended: dividing by a zero-coercing right operand makes the
evaluator return the error `DivisionByZero` to its caller — it is not
written into the cell as a value; and the facade edit `A1 ← "=10/0"`
never evaluates the formula at all (`set_cell` does not register it), so
the call succeeds with an empty diff and A1 keeps the `Empty` placeholder
alongside the stored formula text. -/
theorem c2_divzero_is_error_return :
    evaluate_binary_op .Div (.Number (.finite 10)) (.Number (.finite 0)) =
      .error .DivisionByZero ∧
    (FormulaEngine.parse (str "=10/0")).map
      (fun f => evaluate (f.ast.weight + 1) f.ast engC.grid) =
      .ok (.error .DivisionByZero) ∧
    resC2.1 = .ok ⟨[]⟩ ∧
    (resC2.2.grid.get_cell ⟨0, 0⟩).map Cell.formula = some (some (str "=10/0")) ∧
    resC2.2.grid.value_at ⟨0, 0⟩ = .Empty := by
  refine ⟨?_, ?_, ?_, ?_, ?_⟩
  · with_unfolding_all rfl
  · with_unfolding_all rfl
  · with_unfolding_all rfl
  · with_unfolding_all decide
  · with_unfolding_all decide

/-- C4 (code bug): the parser has no parenthesized-atom path.
`"(1+2)*3"` splits at `*`, and the left side `"(1+2)"` — having a `(` and
ending in `)` — parses as a *function call with empty name* around `1+2`.
Evaluating it returns `UnknownFunction("")`, so the edit
`A1 ← "=(1+2)*3"` fails, A1 keeps the `Empty` placeholder and displays
`""` instead of `"9"`. -/
theorem c4_paren_atom_missing :
    (FormulaEngine.parse (str "=(1+2)*3")).map Formula.ast =
      .ok (.BinaryOp .Mul
        (.Function [] [.BinaryOp .Add (.Number (.finite 1)) (.Number (.finite 2))])
        (.Number (.finite 3))) ∧
    (FormulaEngine.parse (str "=(1+2)*3")).map
      (fun f => evaluate (f.ast.weight + 1) f.ast engC.grid) =
      .ok (.error (.UnknownFunction [])) ∧
    resC4.1 = .error (str "Formula error: Unknown function: ") ∧
    resC4.2.grid.value_at ⟨0, 0⟩ = .Empty ∧
    (resC4.2.grid.get_cell ⟨0, 0⟩).map Cell.display = some [] := by
  refine ⟨?_, ?_, ?_, ?_, ?_⟩
  · with_unfolding_all rfl
  · with_unfolding_all rfl
  · with_unfolding_all rfl
  · with_unfolding_all decide
  · with_unfolding_all decide

/-- C7: the binary levels are found by a right-to-left depth-zero scan
splitting at the rightmost operator of the level (index 0 excluded), so
the additive level splits `"1+2*3"` at the `+` and multiplication binds
tighter: the AST is `1 + (2 * 3)`, it evaluates to `Number 7`, and after
the edit `A1 ← "=1+2*3"` the cell holds `Number 7` and displays `"7"`.
The scan also splits `"1-2-3"` at its rightmost `-` (left associativity)
and refuses the index-0 `-` of `"-2"`. -/
theorem c7_precedence :
    (FormulaEngine.parse (str "=1+2*3")).map Formula.ast =
      .ok (.BinaryOp .Add (.Number (.finite 1))
        (.BinaryOp .Mul (.Number (.finite 2)) (.Number (.finite 3)))) ∧
    findSplit (str "1+2*3") [Char.ofNat 43, Char.ofNat 45] = some 1 ∧
    findSplit (str "1-2-3") [Char.ofNat 43, Char.ofNat 45] = some 3 ∧
    findSplit (str "-2") [Char.ofNat 43, Char.ofNat 45] = none ∧
    (FormulaEngine.parse (str "=1+2*3")).map
      (fun f => evaluate (f.ast.weight + 1) f.ast engC.grid) =
      .ok (.ok (.Number (.finite 7))) ∧
    resC7.2.grid.value_at ⟨0, 0⟩ = .Number (.finite 7) ∧
    (resC7.2.grid.get_cell ⟨0, 0⟩).map Cell.display = some (str "7") ∧
    resC7.1 = .ok ⟨[⟨0, 0, str "7", some (str "=1+2*3"), none⟩]⟩ := by
  refine ⟨?_, ?_, ?_, ?_, ?_, ?_, ?_, ?_⟩
  · with_unfolding_all rfl
  · with_unfolding_all decide
  · with_unfolding_all decide
  · with_unfolding_all decide
  · with_unfolding_all rfl
  · with_unfolding_all decide
  · with_unfolding_all decide
  · with_unfolding_all rfl

theorem c3_grid_a : engC3a.grid =
    { rows := 100, cols := 100,
      columns := [(0, [(0, ⟨.Empty, some (str "=B1"), none⟩)])] } := by
  with_unfolding_all rfl

theorem c3_grid_b : engC3b.grid =
    { rows := 100, cols := 100,
      columns := [(0, [(0, ⟨.Empty, some (str "=B1"), none⟩)]),
                  (1, [(0, ⟨.Empty, some (str "=A1"), none⟩)])] } := by
  with_unfolding_all rfl

theorem c3_values_preserved (r : CellRef) :
    engC3b.grid.value_at r = engC3a.grid.value_at r := by
  rw [c3_grid_a, c3_grid_b]
  rcases r with ⟨row, col⟩
  simp only [Grid.value_at, Grid.get_cell, alistGet]
  by_cases h0 : (0 : ℕ) = col <;> by_cases h1 : (1 : ℕ) = col <;>
    by_cases hr : (0 : ℕ) = row <;>
      simp [h0, h1, hr, alistGet] <;> split_ifs <;> simp_all [alistGet]

/-- C3: registering `A1 ← "=B1"` then `B1 ← "=A1"` (as one-update
patches — the edit path that registers formulas with the graph) makes
the second edit's recalculation return `CircularReference`: the patch
call reports it, the failing `recalculate` itself returns the error with
the grid completely untouched (the topological sort runs before any
write, so no partial computed values are written), and every cell value
equals its value in the last non-cyclic state. -/
theorem c3_cycle_detection :
    resC3.1 = .error (str "Formula error: Circular reference detected") ∧
    (engC3b.formula_engine.recalculate engC3b.grid ⟨0, 1⟩).1 =
      .error .CircularReference ∧
    (engC3b.formula_engine.recalculate engC3b.grid ⟨0, 1⟩).2 = engC3b.grid ∧
    ∀ r : CellRef, engC3b.grid.value_at r = engC3a.grid.value_at r := by
  refine ⟨?_, ?_, ?_, c3_values_preserved⟩
  · with_unfolding_all rfl
  · with_unfolding_all rfl
  · with_unfolding_all decide

/-- C6 counterexample: `set_value(Empty)` removes the whole cell even
when it has a formula.  Storing formula `=1` on A1 and then setting A1's
value to `Empty` returns the grid to its fresh state: the cell — formula
included — is gone, where the claim says a cell with a formula survives
with only its value entry removed. -/
theorem c6_counterexample :
    (Grid.new 10 10).set_formula ⟨0, 0⟩ fmlaOne = .ok gC6f ∧
    gC6f.set_value ⟨0, 0⟩ .Empty = .ok (Grid.new 10 10) ∧
    (Grid.new 10 10).get_cell ⟨0, 0⟩ = none := by
  refine ⟨?_, ?_, ?_⟩
  · with_unfolding_all rfl
  · with_unfolding_all rfl
  · with_unfolding_all decide

/-- C6 as amended: on an in-bounds ref, `set_value(Empty)` succeeds and
removes the cell from the store *unconditionally* — whatever formula or
format it carried — and the column map is kept exactly when some other
row survives in it (an empty column map is removed from the store). -/
theorem c6_set_value_empty_removes (g : Grid) (r : CellRef)
    (h : r.row < g.rows ∧ r.col < g.cols) :
    ∃ g', g.set_value r .Empty = .ok g' ∧
      g'.get_cell r = none ∧
      alistGet r.col g'.columns =
        (if (alistRemove r.row ((alistGet r.col g.columns).getD [])).isEmpty
         then none
         else some (alistRemove r.row ((alistGet r.col g.columns).getD []))) := by
  have hb : g.check_bounds r = .ok () := by
    unfold Grid.check_bounds
    rw [if_neg]
    push_neg
    omega
  set column := (alistGet r.col g.columns).getD [] with hcol
  by_cases hemp : (alistRemove r.row column).isEmpty
  · refine ⟨{ g with columns := alistRemove r.col g.columns }, ?_, ?_, ?_⟩
    · unfold Grid.set_value
      rw [hb]
      simp only [← hcol, hemp, if_pos]
    · unfold Grid.get_cell
      simp [alistGet_remove_self]
    · simp [hemp, alistGet_remove_self]
  · refine ⟨{ g with columns := alistInsert r.col (alistRemove r.row column) g.columns },
      ?_, ?_, ?_⟩
    · unfold Grid.set_value
      rw [hb]
      simp only [← hcol, hemp, if_neg, Bool.false_eq_true, not_false_iff]
    · unfold Grid.get_cell
      simp [alistGet_insert_self, alistGet_remove_self]
    · simp [hemp, alistGet_insert_self]

/-- C6 witness: the amended removal behavior at the concrete formula cell
of `gC6f`. -/
theorem c6_set_value_empty_removes_witness :
    (0 < gC6f.rows ∧ 0 < gC6f.cols) ∧
    ∃ g', gC6f.set_value ⟨0, 0⟩ .Empty = .ok g' ∧
      g'.get_cell ⟨0, 0⟩ = none ∧
      alistGet 0 g'.columns =
        (if (alistRemove 0 ((alistGet 0 gC6f.columns).getD [])).isEmpty
         then none
         else some (alistRemove 0 ((alistGet 0 gC6f.columns).getD []))) :=
  ⟨⟨by decide, by decide⟩, c6_set_value_empty_removes gC6f ⟨0, 0⟩ ⟨by decide, by decide⟩⟩

theorem alistGet_mem {κ α : Type} [DecidableEq κ] {k : κ} {v : α}
    {l : List (κ × α)} (h : alistGet k l = some v) : (k, v) ∈ l := by
  induction l with
  | nil => simp [alistGet] at h
  | cons p rest ih =>
    rcases p with ⟨pk, pv⟩
    by_cases hp : pk = k
    · subst hp
      simp only [alistGet, if_pos] at h
      rw [Option.some_inj] at h
      subst h
      exact List.mem_cons_self _ _
    · simp only [alistGet, hp, if_neg, not_false_iff] at h
      exact List.mem_cons_of_mem _ (ih h)

/-- C5 (code bug): `register_formula` does not reliably remove the old
incoming edges.  It collects the incoming edge ids of the cell's node and
removes them one by one, but petgraph's `remove_edge` swap-removes:
the edge with the largest id is renumbered into the freed slot, so a
later collected id may name a different edge or none by the time it is
removed.  After the reachable registration sequence B1 ← `=A1`;
A2 ← `=C1+D1`; B1 ← `=1`; A2 ← `=E1` (each a plain `register_formula`),
the stale edge C1 → A2 survives: A2's incoming sources are [E1, C1]
although its registered formula's dependency list is [E1] — the incoming
neighbor set is {C1, E1}, not the claimed unique dependency set {E1}.
(Also visible, last conjunct: registration adds one edge per dependency
*occurrence*, never deduplicating — `=A1+A1` on B1 yields two parallel
edges A1 → B1 — where the claim says one edge per unique dependency.) -/
theorem c5_stale_edge :
    alistGet (⟨1, 0⟩ : CellRef) engC5stale.formulas = some fmlaE1 ∧
    fmlaE1.dependencies = [⟨0, 4⟩] ∧
    engC5stale.incomingSources ⟨1, 0⟩ = [some ⟨0, 4⟩, some ⟨0, 2⟩] ∧
    (⟨0, 2⟩ : CellRef) ∉ fmlaE1.dependencies ∧
    engC5.incomingSources ⟨0, 1⟩ = [some ⟨0, 0⟩, some ⟨0, 0⟩] := by
  refine ⟨?_, ?_, ?_, ?_, ?_⟩
  · with_unfolding_all rfl
  · rfl
  · with_unfolding_all decide
  · decide
  · with_unfolding_all decide


/-- C10: a binary arithmetic operation (`Add`, `Sub`, `Mul`, `Div`,
`Pow`) whose either operand does not coerce to a number — in particular
any `Error` value — returns the error `TypeError(number, non-numeric)`
rather than propagating an `Error` result value; consequently the
recalculation of `B1 = "=A1+1"` with A1 holding `Error("DIV/0")` aborts
with exactly that error having written nothing: the grid is returned
untouched and B1 keeps its `Empty` placeholder instead of receiving an
`Error` value. -/
theorem c10_arith_type_error (op : BinaryOp)
    (hop : op ∈ [BinaryOp.Add, BinaryOp.Sub, BinaryOp.Mul, BinaryOp.Div, BinaryOp.Pow])
    (l r : CellValue) (h : l.to_number = none ∨ r.to_number = none) :
    evaluate_binary_op op l r = .error typeErrNonNum ∧
    (feC10.recalculate gC10 ⟨0, 1⟩).1 = .error typeErrNonNum ∧
    (feC10.recalculate gC10 ⟨0, 1⟩).2 = gC10 ∧
    gC10.value_at ⟨0, 1⟩ = .Empty := by
  refine ⟨?_, ?_, ?_, ?_⟩
  · fin_cases hop <;>
    · rcases h with h | h
      · rcases hr : r.to_number with _ | y <;> simp [evaluate_binary_op, h, hr]
      · rcases hl : l.to_number with _ | x <;> simp [evaluate_binary_op, h, hl]
  · with_unfolding_all rfl
  · with_unfolding_all decide
  · with_unfolding_all decide

/-- C10 witness: `Error + Number` at the `Add` operation. -/
theorem c10_arith_type_error_witness :
    BinaryOp.Add ∈ [BinaryOp.Add, BinaryOp.Sub, BinaryOp.Mul, BinaryOp.Div,
      BinaryOp.Pow] ∧
    ((CellValue.Error (str "DIV/0")).to_number = none ∨
      (CellValue.Number (.finite 1)).to_number = none) ∧
    evaluate_binary_op .Add (.Error (str "DIV/0")) (.Number (.finite 1)) =
      .error typeErrNonNum := by
  refine ⟨by decide, Or.inl (by decide), ?_⟩
  exact (c10_arith_type_error .Add (by decide) _ _ (Or.inl (by decide))).1

theorem jGet_cons_self (k : Str) (v : Json) (rest : List (Str × Json)) :
    jGet ((k, v) :: rest) k = some v := by
  simp [jGet]

theorem jGet_cons_ne {k name : Str} (h : ¬ k = name) (v : Json)
    (rest : List (Str × Json)) :
    jGet ((k, v) :: rest) name = jGet rest name := by
  simp [jGet, h]

theorem decodeU32_encodeU32 {n : Nat} (h : n < 4294967296) :
    decodeU32 (encodeU32 n) = some n := by
  show (if ((n : ℚ)).den = 1 ∧ 0 ≤ ((n : ℚ)).num ∧ ((n : ℚ)).num < 4294967296
        then some ((n : ℚ)).num.toNat else none) = some n
  rw [if_pos]
  · rw [Rat.num_natCast, Int.toNat_natCast]
  · refine ⟨Rat.den_natCast n, ?_, ?_⟩
    · rw [Rat.num_natCast]
      exact Int.natCast_nonneg n
    · rw [Rat.num_natCast]
      exact_mod_cast h

theorem decodeCellValue_encode (v : CellValue) (h : v.finiteNum) :
    decodeCellValue (encodeCellValue v) = some v := by
  cases v with
  | Number n =>
    cases n with
    | finite q => rfl
    | nan => exact h.elim
    | inf => exact h.elim
    | neginf => exact h.elim
  | Empty => rfl
  | Text s => rfl
  | Boolean b => rfl
  | Error e => rfl

theorem decodeCell_encode (c : Cell) (hf : c.formula = none)
    (hm : c.format = none) (h : c.value.finiteNum) :
    decodeCell (encodeCell c) = some c := by
  rcases c with ⟨v, fla, fmt⟩
  simp only at hf hm h
  subst hf
  subst hm
  have h1 := decodeCellValue_encode v h
  have hv : jGet [(str "value", encodeCellValue v)] (str "value") =
      some (encodeCellValue v) := jGet_cons_self _ _ _
  have hfla : jGet [(str "value", encodeCellValue v)] (str "formula") = none := by
    rw [jGet_cons_ne (by decide)]
    rfl
  have hfmt : jGet [(str "value", encodeCellValue v)] (str "format") = none := by
    rw [jGet_cons_ne (by decide)]
    rfl
  show decodeCell (.obj [(str "value", encodeCellValue v)]) = some ⟨v, none, none⟩
  simp [decodeCell, hv, hfla, hfmt, decodeOptField, h1]

theorem decodeColumn_encode (col : Column)
    (h : ∀ q ∈ col, q.1 < 4294967296 ∧ q.2.formula = none ∧ q.2.format = none ∧
      q.2.value.finiteNum) :
    decodeNatMapFields decodeCell
      (col.map (fun p => (natToStr p.1, encodeCell p.2))) = some col := by
  induction col with
  | nil => rfl
  | cons q rest ih =>
    obtain ⟨hk, hf, hm, hval⟩ := h q (List.mem_cons_self _ _)
    have hrest := ih (fun p hp => h p (List.mem_cons_of_mem _ hp))
    simp only [List.map_cons, decodeNatMapFields, parseU32_natToStr hk,
      decodeCell_encode q.2 hf hm hval, hrest]

theorem decodeColumns_encode (cols : List (Nat × Column))
    (h : ∀ p ∈ cols, p.1 < 4294967296 ∧ ∀ q ∈ p.2,
      q.1 < 4294967296 ∧ q.2.formula = none ∧ q.2.format = none ∧
      q.2.value.finiteNum) :
    decodeNatMap (decodeNatMap decodeCell)
      (encodeNatMap (encodeNatMap encodeCell) cols) = some cols := by
  induction cols with
  | nil => rfl
  | cons p rest ih =>
    obtain ⟨hk, hcol⟩ := h p (List.mem_cons_self _ _)
    have hrest := ih (fun p hp => h p (List.mem_cons_of_mem _ hp))
    have hinner : decodeNatMap decodeCell (encodeNatMap encodeCell p.2) = some p.2 :=
      decodeColumn_encode p.2 hcol
    simp only [encodeNatMap, List.map_cons, decodeNatMap, decodeNatMapFields,
      parseU32_natToStr hk, hinner] at hrest ⊢
    rw [decodeColumn_encode p.2 hcol]
    simp [hrest]

/-- Shape facts of any value-only grid: `u32` dimensions, untouched width
and height state, in-bounds keys, and bare cells (no formula, no
format). -/
theorem valueOnly_shape {g : Grid} (hv : ValueOnly g) :
    g.rows < 4294967296 ∧ g.cols < 4294967296 ∧
    g.col_widths = [] ∧ g.row_heights = [] ∧
    g.default_col_width = .finite 100 ∧ g.default_row_height = .finite 24 ∧
    ∀ p ∈ g.columns, p.1 < g.cols ∧
      ∀ q ∈ p.2, q.1 < g.rows ∧ q.2.formula = none ∧ q.2.format = none := by
  induction hv with
  | new rows cols hr hc =>
    refine ⟨hr, hc, rfl, rfl, rfl, rfl, ?_⟩
    intro p hp
    cases hp
  | step g r v g' hg hs ih =>
    obtain ⟨hr, hc, hw, hh, hd1, hd2, hcols⟩ := ih
    have hbnd : ¬(r.row ≥ g.rows ∨ r.col ≥ g.cols) := by
      intro hcon
      unfold Grid.set_value Grid.check_bounds at hs
      rw [if_pos hcon] at hs
      cases hs
    have hok : g.check_bounds r = .ok () := by
      unfold Grid.check_bounds
      rw [if_neg hbnd]
    push_neg at hbnd
    have hColProp : ∀ q ∈ (alistGet r.col g.columns).getD [],
        q.1 < g.rows ∧ q.2.formula = none ∧ q.2.format = none := by
      intro q hq
      rcases hcg : alistGet r.col g.columns with _ | c
      · rw [hcg] at hq
        cases hq
      · rw [hcg] at hq
        exact (hcols (r.col, c) (alistGet_mem hcg)).2 q hq
    unfold Grid.set_value at hs
    rw [hok] at hs
    cases v with
    | Empty =>
      simp only at hs
      split_ifs at hs with hemp <;> cases hs <;>
        refine ⟨hr, hc, hw, hh, hd1, hd2, ?_⟩
      · intro p hp
        exact hcols p (List.mem_filter.mp hp).1
      · intro p hp
        rcases mem_alistInsert _ _ _ p hp with rfl | hp
        · refine ⟨hbnd.2, ?_⟩
          intro q hq
          exact hColProp q (List.mem_filter.mp hq).1
        · exact hcols p hp
    | Text s =>
      simp only at hs
      cases hs
      refine ⟨hr, hc, hw, hh, hd1, hd2, ?_⟩
      intro p hp
      rcases mem_alistInsert _ _ _ p hp with rfl | hp
      · refine ⟨hbnd.2, ?_⟩
        intro q hq
        rcases mem_alistInsert _ _ _ q hq with rfl | hq
        · exact ⟨hbnd.1, rfl, rfl⟩
        · exact hColProp q hq
      · exact hcols p hp
    | Number n =>
      simp only at hs
      cases hs
      refine ⟨hr, hc, hw, hh, hd1, hd2, ?_⟩
      intro p hp
      rcases mem_alistInsert _ _ _ p hp with rfl | hp
      · refine ⟨hbnd.2, ?_⟩
        intro q hq
        rcases mem_alistInsert _ _ _ q hq with rfl | hq
        · exact ⟨hbnd.1, rfl, rfl⟩
        · exact hColProp q hq
      · exact hcols p hp
    | Boolean b =>
      simp only at hs
      cases hs
      refine ⟨hr, hc, hw, hh, hd1, hd2, ?_⟩
      intro p hp
      rcases mem_alistInsert _ _ _ p hp with rfl | hp
      · refine ⟨hbnd.2, ?_⟩
        intro q hq
        rcases mem_alistInsert _ _ _ q hq with rfl | hq
        · exact ⟨hbnd.1, rfl, rfl⟩
        · exact hColProp q hq
      · exact hcols p hp
    | Error e =>
      simp only at hs
      cases hs
      refine ⟨hr, hc, hw, hh, hd1, hd2, ?_⟩
      intro p hp
      rcases mem_alistInsert _ _ _ p hp with rfl | hp
      · refine ⟨hbnd.2, ?_⟩
        intro q hq
        rcases mem_alistInsert _ _ _ q hq with rfl | hq
        · exact ⟨hbnd.1, rfl, rfl⟩
        · exact hColProp q hq
      · exact hcols p hp

theorem to_json_fields (rows cols : Nat) (columns : List (Nat × Column))
    (cw rh : List (Nat × F64)) (dcw drh : F64) :
    Grid.to_json ⟨rows, cols, columns, cw, rh, dcw, drh⟩ =
      .obj (gridFieldsJson rows cols columns cw rh dcw drh) := rfl

theorem from_json_obj (fields : List (Str × Json)) :
    Grid.from_json (.obj fields) = fromJsonFields fields := rfl

theorem jGet_gf_rows (rows cols : Nat) (columns : List (Nat × Column))
    (cw rh : List (Nat × F64)) (dcw drh : F64) :
    jGet (gridFieldsJson rows cols columns cw rh dcw drh) (str "rows") =
      some (encodeU32 rows) :=
  jGet_cons_self _ _ _

theorem jGet_gf_cols (rows cols : Nat) (columns : List (Nat × Column))
    (cw rh : List (Nat × F64)) (dcw drh : F64) :
    jGet (gridFieldsJson rows cols columns cw rh dcw drh) (str "cols") =
      some (encodeU32 cols) := by
  unfold gridFieldsJson
  rw [jGet_cons_ne (by decide), jGet_cons_self]

theorem jGet_gf_columns (rows cols : Nat) (columns : List (Nat × Column))
    (cw rh : List (Nat × F64)) (dcw drh : F64) :
    jGet (gridFieldsJson rows cols columns cw rh dcw drh) (str "columns") =
      some (encodeNatMap (encodeNatMap encodeCell) columns) := by
  unfold gridFieldsJson
  rw [jGet_cons_ne (by decide), jGet_cons_ne (by decide), jGet_cons_self]

theorem jGet_gf_cw (rows cols : Nat) (columns : List (Nat × Column))
    (cw rh : List (Nat × F64)) (dcw drh : F64) :
    jGet (gridFieldsJson rows cols columns cw rh dcw drh) (str "col_widths") =
      some (encodeNatMap encodeF64 cw) := by
  unfold gridFieldsJson
  rw [jGet_cons_ne (by decide), jGet_cons_ne (by decide),
    jGet_cons_ne (by decide), jGet_cons_self]

theorem jGet_gf_rh (rows cols : Nat) (columns : List (Nat × Column))
    (cw rh : List (Nat × F64)) (dcw drh : F64) :
    jGet (gridFieldsJson rows cols columns cw rh dcw drh) (str "row_heights") =
      some (encodeNatMap encodeF64 rh) := by
  unfold gridFieldsJson
  rw [jGet_cons_ne (by decide), jGet_cons_ne (by decide),
    jGet_cons_ne (by decide), jGet_cons_ne (by decide), jGet_cons_self]

theorem jGet_gf_dcw (rows cols : Nat) (columns : List (Nat × Column))
    (cw rh : List (Nat × F64)) (dcw drh : F64) :
    jGet (gridFieldsJson rows cols columns cw rh dcw drh)
      (str "default_col_width") = some (encodeF64 dcw) := by
  unfold gridFieldsJson
  rw [jGet_cons_ne (by decide), jGet_cons_ne (by decide),
    jGet_cons_ne (by decide), jGet_cons_ne (by decide),
    jGet_cons_ne (by decide), jGet_cons_self]

theorem jGet_gf_drh (rows cols : Nat) (columns : List (Nat × Column))
    (cw rh : List (Nat × F64)) (dcw drh : F64) :
    jGet (gridFieldsJson rows cols columns cw rh dcw drh)
      (str "default_row_height") = some (encodeF64 drh) := by
  unfold gridFieldsJson
  rw [jGet_cons_ne (by decide), jGet_cons_ne (by decide),
    jGet_cons_ne (by decide), jGet_cons_ne (by decide),
    jGet_cons_ne (by decide), jGet_cons_ne (by decide), jGet_cons_self]

theorem fromJsonFields_eq {fields : List (Str × Json)} {rows : Nat}
    (h : (jGet fields (str "rows")).bind decodeU32 = some rows) :
    fromJsonFields fields = fromJson2 fields rows := by
  unfold fromJsonFields
  rw [h]

theorem fromJson2_eq {fields : List (Str × Json)} {rows cols : Nat}
    (h : (jGet fields (str "cols")).bind decodeU32 = some cols) :
    fromJson2 fields rows = fromJson3 fields rows cols := by
  unfold fromJson2
  rw [h]

theorem fromJson3_eq {fields : List (Str × Json)} {rows cols : Nat}
    {columns : List (Nat × Column)}
    (h : decFieldD (decodeNatMap (decodeNatMap decodeCell)) []
      (jGet fields (str "columns")) = some columns) :
    fromJson3 fields rows cols = fromJson4 fields rows cols columns := by
  unfold fromJson3
  rw [h]

theorem fromJson4_eq {fields : List (Str × Json)} {rows cols : Nat}
    {columns : List (Nat × Column)} {cw : List (Nat × F64)}
    (h : decFieldD (decodeNatMap decodeF64) []
      (jGet fields (str "col_widths")) = some cw) :
    fromJson4 fields rows cols columns = fromJson5 fields rows cols columns cw := by
  unfold fromJson4
  rw [h]

theorem fromJson5_eq {fields : List (Str × Json)} {rows cols : Nat}
    {columns : List (Nat × Column)} {cw rh : List (Nat × F64)}
    (h : decFieldD (decodeNatMap decodeF64) []
      (jGet fields (str "row_heights")) = some rh) :
    fromJson5 fields rows cols columns cw =
      fromJson6 fields rows cols columns cw rh := by
  unfold fromJson5
  rw [h]

theorem fromJson6_eq {fields : List (Str × Json)} {rows cols : Nat}
    {columns : List (Nat × Column)} {cw rh : List (Nat × F64)} {dcw : F64}
    (h : decFieldD decodeF64 (.finite 100)
      (jGet fields (str "default_col_width")) = some dcw) :
    fromJson6 fields rows cols columns cw rh =
      fromJson7 fields rows cols columns cw rh dcw := by
  unfold fromJson6
  rw [h]

theorem fromJson7_eq {fields : List (Str × Json)} {rows cols : Nat}
    {columns : List (Nat × Column)} {cw rh : List (Nat × F64)} {dcw drh : F64}
    (h : decFieldD decodeF64 (.finite 24)
      (jGet fields (str "default_row_height")) = some drh) :
    fromJson7 fields rows cols columns cw rh dcw =
      .ok ⟨rows, cols, columns, cw, rh, dcw, drh⟩ := by
  unfold fromJson7
  rw [h]

theorem decFieldD_some {α : Type} (dec : Json → Option α) (dflt : α)
    (j : Json) : decFieldD dec dflt (some j) = dec j := rfl

/-- C9: for every value-only grid (built by `Grid::new` plus successful
`set_value` calls) whose stored numbers are all finite, `from_json ∘ to_json`
is the identity.  The finiteness hypothesis is necessary: see
`c9_counterexample` for the `Number(NaN)` value-only grid, which serde_json
serializes as `null` and then refuses to deserialize. -/
theorem c9_roundtrip (g : Grid) (hv : ValueOnly g) (hfin : GridFinite g) :
    Grid.from_json (Grid.to_json g) = .ok g := by
  obtain ⟨hr, hc, hw, hh, hd1, hd2, hcols⟩ := valueOnly_shape hv
  rcases g with ⟨rows, cols, columns, cw, rh, dcw, drh⟩
  simp only at hr hc hw hh hd1 hd2 hcols
  subst hw
  subst hh
  subst hd1
  subst hd2
  have hfin' : ∀ p ∈ columns, ∀ q ∈ p.2, q.2.value.finiteNum := hfin
  have hcolsDec : decodeNatMap (decodeNatMap decodeCell)
      (encodeNatMap (encodeNatMap encodeCell) columns) = some columns := by
    apply decodeColumns_encode
    intro p hp
    refine ⟨lt_trans (hcols p hp).1 hc, ?_⟩
    intro q hq
    obtain ⟨hq1, hq2, hq3⟩ := (hcols p hp).2 q hq
    exact ⟨lt_trans hq1 hr, hq2, hq3, hfin' p hp q hq⟩
  have e1 : (jGet (gridFieldsJson rows cols columns [] [] (.finite 100)
      (.finite 24)) (str "rows")).bind decodeU32 = some rows := by
    rw [jGet_gf_rows, Option.some_bind']
    exact decodeU32_encodeU32 hr
  have e2 : (jGet (gridFieldsJson rows cols columns [] [] (.finite 100)
      (.finite 24)) (str "cols")).bind decodeU32 = some cols := by
    rw [jGet_gf_cols, Option.some_bind']
    exact decodeU32_encodeU32 hc
  have e3 : decFieldD (decodeNatMap (decodeNatMap decodeCell)) []
      (jGet (gridFieldsJson rows cols columns [] [] (.finite 100) (.finite 24))
        (str "columns")) = some columns := by
    rw [jGet_gf_columns, decFieldD_some]
    exact hcolsDec
  have e4 : decFieldD (decodeNatMap decodeF64) []
      (jGet (gridFieldsJson rows cols columns [] [] (.finite 100) (.finite 24))
        (str "col_widths")) = some [] := by
    rw [jGet_gf_cw, decFieldD_some]
    rfl
  have e5 : decFieldD (decodeNatMap decodeF64) []
      (jGet (gridFieldsJson rows cols columns [] [] (.finite 100) (.finite 24))
        (str "row_heights")) = some [] := by
    rw [jGet_gf_rh, decFieldD_some]
    rfl
  have e6 : decFieldD decodeF64 (.finite 100)
      (jGet (gridFieldsJson rows cols columns [] [] (.finite 100) (.finite 24))
        (str "default_col_width")) = some (.finite 100) := by
    rw [jGet_gf_dcw, decFieldD_some]
    rfl
  have e7 : decFieldD decodeF64 (.finite 24)
      (jGet (gridFieldsJson rows cols columns [] [] (.finite 100) (.finite 24))
        (str "default_row_height")) = some (.finite 24) := by
    rw [jGet_gf_drh, decFieldD_some]
    rfl
  rw [to_json_fields, from_json_obj, fromJsonFields_eq e1, fromJson2_eq e2,
    fromJson3_eq e3, fromJson4_eq e4, fromJson5_eq e5, fromJson6_eq e6,
    fromJson7_eq e7]

theorem c9_roundtrip_witness :
    ValueOnly g42 ∧ GridFinite g42 ∧
      Grid.from_json (Grid.to_json g42) = .ok g42 := by
  have hstep : (Grid.new 3 3).set_value ⟨0, 0⟩ (.Number (.finite 42)) =
      .ok g42 := by
    with_unfolding_all rfl
  have hvo : ValueOnly g42 :=
    .step _ _ _ _ (.new 3 3 (by decide) (by decide)) hstep
  have hfin : GridFinite g42 := by
    intro p hp q hq
    cases hp with
    | head =>
      cases hq with
      | head => exact trivial
      | tail _ h => cases h
    | tail _ h => cases h
  exact ⟨hvo, hfin, c9_roundtrip g42 hvo hfin⟩

/-- C9 counterexample: the value-only grid holding `Number(NaN)` (one
successful `set_value` away from `Grid::new`) does not round-trip —
serde_json writes non-finite floats as `null`, which `from_json` rejects. -/
theorem c9_counterexample :
    (Grid.new 5 5).set_value ⟨0, 0⟩ (.Number .nan) = .ok gNan ∧
      Grid.from_json (Grid.to_json gNan) = .error serdeErr := by
  constructor
  · with_unfolding_all rfl
  · with_unfolding_all rfl
